import Mathlib

/-!
Shallow embedding of `browser_history_diff.py` (Cortex repository).

The script harvests browsing-history rows from Firefox / Chrome / Edge /
Safari sqlite databases, keeps a per-source watermark (the highest canonical
Unix timestamp already collected) in a JSON state file, appends the collected
rows to per-source CSV logs with dedup on the key `(url, ts_unix, profile)`,
and emits a run summary.

Modelling conventions used throughout this file:
* Python floats are modelled as exact rationals `ℚ`; `round(x, 3)` is
  modelled as exact round-half-even to a multiple of `1/1000`
  (`roundMs`), and `int(x)` as truncation toward zero (`truncInt`).
  The CSV stores `ts_unix` via `str`, which is injective on floats, so the
  dedup key component is modelled as the rational itself.
* The watermark dictionary is a function `String → Option ℚ`
  (`none` = key absent), `dict.get k 0.0` is `getWm`, `dict[k] = v` is `setWm`.
* sqlite databases are lists of rows.  All the skip paths of one profile
  (file absent, `safe_copy` failure, `sqlite3.connect` failure) are collapsed
  into `Option`: a profile whose `db` is `none` contributes nothing, exactly
  as every such path `continue`s in the source.  A `NULL` native timestamp
  cannot satisfy the SQL condition `visit_... > ?`, so rows carry a plain
  integer (resp. rational for Safari) timestamp; `NULL` titles are modelled
  with `Option String` and the source's `title or ""`.
* `datetime` arithmetic raising (`OverflowError` outside year range 1..9999)
  is modelled by the explicit range check `tsInRange`; the `except` clauses
  of the three converters return the sentinel `0.0`.
* A collector that raises is modelled at the coordinator level by a
  `CollectorSpec` whose `run` returns `none` (the `except` branch of `main`).
-/

namespace BrowserHistoryDiff

/-! ## Watermark state (`load_state` / `save_state` dictionary) -/

/-- Watermark mapping persisted in `~/.browser_collect_state.json`:
source identifier to highest collected Unix timestamp.  `none` models an
absent key. -/
def WmState : Type := String → Option ℚ

/-- Python `state.get(key, 0.0)`. -/
def getWm (s : WmState) (k : String) : ℚ := (s k).getD 0

/-- Python `state[key] = v`. -/
def setWm (s : WmState) (k : String) (v : ℚ) : WmState :=
  fun k2 => if k2 = k then some v else s k2

/-! ## Numeric helpers: Python `round` and `int` -/

/-- Round-half-even to an integer: the rounding mode of Python `round`. -/
def roundHalfEven (q : ℚ) : ℤ :=
  if Int.fract q < 1/2 then ⌊q⌋
  else if 1/2 < Int.fract q then ⌊q⌋ + 1
  else if ⌊q⌋ % 2 = 0 then ⌊q⌋ else ⌊q⌋ + 1

/-- Python `round(ts, 3)`, used at every `"ts_unix": round(ts, 3)` site. -/
def roundMs (q : ℚ) : ℚ := (roundHalfEven (q * 1000) : ℚ) / 1000

/-- Python `int()` applied to a (modelled) float: truncation toward zero. -/
def truncInt (q : ℚ) : ℤ := if 0 ≤ q then ⌊q⌋ else ⌈q⌉

/-! ## Time helpers (source lines 19-39) -/

/-- Unix timestamp of `EPOCH_1601 = datetime(1601, 1, 1, tzinfo=utc)`. -/
def EPOCH_1601_TS : ℚ := -11644473600

/-- Unix timestamp of `EPOCH_2001 = datetime(2001, 1, 1, tzinfo=utc)`. -/
def EPOCH_2001_TS : ℚ := 978307200

/-- Unix timestamp of `datetime.min` (0001-01-01 00:00:00 UTC). -/
def DT_MIN_TS : ℚ := -62135596800

/-- Unix timestamp of `datetime.max` (9999-12-31 23:59:59.999999 UTC). -/
def DT_MAX_TS : ℚ := 253402300799 + 999999/1000000

/-- Python `datetime` arithmetic succeeds exactly when the result stays in
the representable range; outside it, `OverflowError` is raised and the
converters return their sentinel `0.0`. -/
def tsInRange (ts : ℚ) : Prop := DT_MIN_TS ≤ ts ∧ ts ≤ DT_MAX_TS

instance : DecidablePred tsInRange := fun _ => instDecidableAnd

/-- `chrome_time_to_unix_s`: microseconds since 1601 to Unix seconds,
`0.0` on overflow (the `except` branch). -/
def chrome_time_to_unix_s (micro_since_1601 : ℤ) : ℚ :=
  let ts := EPOCH_1601_TS + (micro_since_1601 : ℚ) / 1000000
  if tsInRange ts then ts else 0

/-- Fractional seconds handed to `timedelta(seconds=...)` are rounded
half-even to whole microseconds inside `timedelta`. -/
def safariSeconds (sec : ℚ) : ℚ := (roundHalfEven (sec * 1000000) : ℚ) / 1000000

/-- `safari_time_to_unix_s`: seconds since 2001 to Unix seconds,
`0.0` on overflow (the `except` branch). -/
def safari_time_to_unix_s (sec_since_2001 : ℚ) : ℚ :=
  let ts := EPOCH_2001_TS + safariSeconds sec_since_2001
  if tsInRange ts then ts else 0

/-- `firefox_time_to_unix_s`: microseconds since 1970 to Unix seconds,
`0.0` when `datetime.fromtimestamp` raises (the `except` branch). -/
def firefox_time_to_unix_s (micro_since_1970 : ℤ) : ℚ :=
  let ts := (micro_since_1970 : ℚ) / 1000000
  if tsInRange ts then ts else 0

/-! ## Events and the dedup-append CSV writer (source lines 69-102) -/

/-- One collected row, with exactly the CSV columns
`url, title, ts_unix, browser, profile`. -/
structure Event where
  browser : String
  profile : String
  url : String
  title : String
  ts_unix : ℚ
deriving DecidableEq

/-- Dedup identity key `(url, ts_unix, profile)` of `write_csv_append`.
In the source the `ts_unix` component is compared through `str`, which is
injective on floats, so the rational itself is a faithful model. -/
def csvKey (e : Event) : String × ℚ × String := (e.url, e.ts_unix, e.profile)

/-- `write_csv_append`: the `existing` key set is computed once from the
current log, then candidates whose key is absent are appended in order
(`existing` is never extended during the loop).  Returns the new log
contents and the count of rows actually written. -/
def write_csv_append (rows : List Event) (log : List Event) : List Event × ℕ :=
  let existing := log.map csvKey
  let appended := rows.filter fun r => decide (csvKey r ∉ existing)
  (log ++ appended, appended.length)

/-! ## Backend query parameters (watermark converted to native units) -/

/-- Firefox: `param = int(last*1_000_000)` (line 141). -/
def firefoxParam (last : ℚ) : ℤ := truncInt (last * 1000000)

/-- Chromium family:
`param = int((last - EPOCH_1601.timestamp())*1_000_000) if last>0 else 0`
(line 185). -/
def chromiumParam (last : ℚ) : ℤ :=
  if 0 < last then truncInt ((last - EPOCH_1601_TS) * 1000000) else 0

/-- Safari: `param = (last - EPOCH_2001.timestamp()) if last>0 else 0`
(line 252). -/
def safariParam (last : ℚ) : ℚ :=
  if 0 < last then last - EPOCH_2001_TS else 0

/-! ## SQL LIKE filter -/

/-- ASCII lower-casing as applied by sqlite `LIKE` (which is
case-insensitive for ASCII only). -/
def asciiLower (c : Char) : Char :=
  if 'A' ≤ c ∧ c ≤ 'Z' then Char.ofNat (c.toNat + 32) else c

/-- The SQL condition `url LIKE 'http%'`: the first four characters are
`http` up to ASCII case. -/
def likeHttp (u : String) : Bool :=
  decide ((u.toList.take 4).map asciiLower = ['h', 't', 't', 'p'])

/-- Stated from the spec's words, for comparison with the code's filter:
a url "begins with an HTTP(S) scheme" when it starts with `http://` or
`https://` (ASCII case-insensitively).  The code's `LIKE 'http%'` filter
is strictly weaker. -/
def isHttpScheme (u : String) : Bool :=
  decide ((u.toList.take 7).map asciiLower = "http://".toList) ||
  decide ((u.toList.take 8).map asciiLower = "https://".toList)

/-! ## Per-source collectors (source lines 105-271) -/

/-- What a collector returns: the tuple `(key, results, last)` of the
source plus the watermark dictionary after its in-place mutation. -/
structure Outcome where
  name : String
  rows : List Event
  prev : ℚ
  state : WmState

/-- Maximum of `r["ts_unix"]` over a result list: Python
`max(r["ts_unix"] for r in results)`, only ever evaluated on a non-empty
list (the `[]` case is unreachable at the call sites). -/
def maxTs : List Event → ℚ
  | [] => 0
  | e :: es => es.foldl (fun a x => max a x.ts_unix) e.ts_unix

/-- Shared shape of the three collector implementations: read
`last = state.get(key, 0.0)`, compute the result rows (which depend on the
state only through `last`), then
`if results: state[key] = max(last, max(r["ts_unix"] for r in results))`,
and return `(key, results, last)`. -/
def mkCollector (key : String) (resultsAt : ℚ → List Event) (state : WmState) : Outcome :=
  let last := getWm state key
  let results := resultsAt last
  let state' :=
    if results.isEmpty then state else setWm state key (max last (maxTs results))
  ⟨key, results, last, state'⟩

/-- One row of `moz_historyvisits JOIN moz_places`.  A `NULL` `visit_date`
cannot satisfy `visit_date > ?`, so the timestamp is a plain integer;
`title` may be `NULL` (`title or ""` in the source). -/
structure FxRow where
  url : String
  title : Option String
  visit_date : ℤ
deriving DecidableEq

/-- One Firefox profile directory: its name and its `places.sqlite`
contents, `none` for every skip path (missing file, `safe_copy` failure,
`sqlite3.connect` failure). -/
structure FxProfile where
  name : String
  db : Option (List FxRow)

/-- Row-to-dict materialization inside the Firefox query loop, including
the `ts <= 0: continue` discard and `round(ts, 3)`. -/
def fxEvent (profileName : String) (r : FxRow) : Option Event :=
  let ts := firefox_time_to_unix_s r.visit_date
  if ts ≤ 0 then none
  else some ⟨"firefox", profileName, r.url, r.title.getD "", roundMs ts⟩

/-- Rows readable from an optional database: a skipped profile (`none`)
contributes no rows, exactly as its `continue` path does. -/
def optRows {α : Type} : Option (List α) → List α
  | none => []
  | some rs => rs

/-- The Firefox result rows for a given watermark: all profiles, rows
filtered by `url LIKE 'http%' AND visit_date > param`.  `fs = none`
models an unsupported platform or a missing profiles directory. -/
def fxResults : Option (List FxProfile) → ℚ → List Event
  | none, _ => []
  | some profiles, last =>
    profiles.flatMap fun p =>
      ((optRows p.db).filter fun r =>
        likeHttp r.url && decide (firefoxParam last < r.visit_date)).filterMap
        (fxEvent p.name)

/-- `collect_firefox` (lines 105-161). -/
def collect_firefox (state : WmState) (fs : Option (List FxProfile)) : Outcome :=
  mkCollector "firefox" (fxResults fs) state

/-- One row of `visits JOIN urls` in a Chromium-family `History` db. -/
structure ChRow where
  url : String
  title : Option String
  visit_time : ℤ
deriving DecidableEq

/-- One Chromium-family profile (`hist_path.parent.name` and the
`History` db contents, `none` for every skip path). -/
structure ChProfile where
  name : String
  db : Option (List ChRow)

/-- Row materialization inside the Chromium-family query loop. -/
def chEvent (familyKey profileName : String) (r : ChRow) : Option Event :=
  let ts := chrome_time_to_unix_s r.visit_time
  if ts ≤ 0 then none
  else some ⟨familyKey, profileName, r.url, r.title.getD "", roundMs ts⟩

/-- The Chromium-family result rows for a given watermark. -/
def chResults (familyKey : String) (profiles : List ChProfile) (last : ℚ) : List Event :=
  profiles.flatMap fun p =>
    ((optRows p.db).filter fun r =>
      likeHttp r.url && decide (chromiumParam last < r.visit_time)).filterMap
      (chEvent familyKey p.name)

/-- `_collect_chromium_family` (lines 163-204), shared by `collect_chrome`
and `collect_edge`. -/
def collect_chromium_family (state : WmState) (familyKey : String)
    (profiles : List ChProfile) : Outcome :=
  mkCollector familyKey (chResults familyKey profiles) state

/-- One row of `history_visits JOIN history_items` in Safari
`History.db`; `visit_time` is a float (seconds since 2001). -/
structure SfRow where
  url : String
  title : Option String
  visit_time : ℚ
deriving DecidableEq

/-- Row materialization inside the Safari query loop (profile is the
literal `"default"`). -/
def sfEvent (r : SfRow) : Option Event :=
  let ts := safari_time_to_unix_s r.visit_time
  if ts ≤ 0 then none
  else some ⟨"safari", "default", r.url, r.title.getD "", roundMs ts⟩

/-- The Safari result rows for a given watermark; `fs = none` models a
non-darwin platform, a missing `History.db`, or a copy/connect failure. -/
def sfResults : Option (List SfRow) → ℚ → List Event
  | none, _ => []
  | some rows, last =>
    (rows.filter fun r =>
      likeHttp r.url && decide (safariParam last < r.visit_time)).filterMap sfEvent

/-- `collect_safari` (lines 228-271). -/
def collect_safari (state : WmState) (fs : Option (List SfRow)) : Outcome :=
  mkCollector "safari" (sfResults fs) state

/-! ## Run coordinator (`main`, source lines 299-365) -/

/-- Python `fn.__name__.replace("collect_", "")`; the four collector
names contain the pattern exactly once, as a prefix, so the replacement
is precisely stripping the 8-character pattern when it leads. -/
def stripCollect (s : String) : String :=
  if s.toList.take 8 = "collect_".toList then ⟨s.toList.drop 8⟩ else s

/-- One collector as invoked by the `for fn in collectors` loop.  `run`
returning `none` models `fn(state)` raising, which `main` catches. -/
structure CollectorSpec where
  fnName : String
  run : WmState → Option Outcome

/-- One entry of the `summaries` list of `main`. -/
structure SummaryEntry where
  browser : String
  new_rows : ℕ
  prev_last_ts : ℚ
  new_last_ts : ℚ
deriving DecidableEq

/-- The mutable loop state of `main`: watermark dict, CSV logs keyed by
the summary name (`out/history_{name}.csv`), `summaries`, `all_rows`. -/
structure RunAcc where
  state : WmState
  logs : String → List Event
  summaries : List SummaryEntry
  allRows : List Event

/-- One iteration of the coordinator loop: run the collector (with the
`except` fallback building `(fn.__name__.replace("collect_",""), [],
state.get(fn.__name__, 0.0))` and leaving the state untouched), append the
rows to the per-source CSV, record the summary entry
`{browser, new_rows, prev_last_ts, new_last_ts: state.get(name, prev)}`,
and extend `all_rows`. -/
def runOutcome (a : RunAcc) (c : CollectorSpec) : Outcome :=
  match c.run a.state with
  | some o => o
  | none => ⟨stripCollect c.fnName, [], getWm a.state c.fnName, a.state⟩

/-- The rest of one loop iteration: append the rows to the per-source
CSV, record the summary entry `{browser, new_rows, prev_last_ts,
new_last_ts: state.get(name, prev)}`, and extend `all_rows`. -/
def stepCollector (a : RunAcc) (c : CollectorSpec) : RunAcc :=
  let r := runOutcome a c
  let w := write_csv_append r.rows (a.logs r.name)
  ⟨r.state,
   fun k => if k = r.name then w.1 else a.logs k,
   a.summaries ++ [⟨r.name, w.2, r.prev, (r.state r.name).getD r.prev⟩],
   a.allRows ++ r.rows⟩

/-- The result of one `main` run: loop state, the persisted watermark
mapping (`save_state(state)`), and the summary total
`"total_new": len(all_rows)`. -/
structure RunResult where
  acc : RunAcc
  savedState : WmState
  total_new : ℕ

/-- The whole of `main` on a given collector list: fold the loop, persist
the state, report the total. -/
def runMain (cs : List CollectorSpec) (state0 : WmState)
    (logs0 : String → List Event) : RunResult :=
  let a := cs.foldl stepCollector ⟨state0, logs0, [], []⟩
  ⟨a, a.state, a.allRows.length⟩

/-- The environment a run executes in: the four backends (fixed contents
for the run) and, for each collector, whether its invocation raises. -/
structure Env where
  ffFS : Option (List FxProfile)
  ffCrash : Bool
  chFS : List ChProfile
  chCrash : Bool
  edFS : List ChProfile
  edCrash : Bool
  sfFS : Option (List SfRow)
  sfCrash : Bool

/-- `collect_firefox` as an entry of the `collectors` list. -/
def firefoxSpec (env : Env) : CollectorSpec :=
  ⟨"collect_firefox", fun s =>
    if env.ffCrash then none else some (collect_firefox s env.ffFS)⟩

/-- `collect_chrome` as an entry of the `collectors` list. -/
def chromeSpec (env : Env) : CollectorSpec :=
  ⟨"collect_chrome", fun s =>
    if env.chCrash then none else some (collect_chromium_family s "chrome" env.chFS)⟩

/-- `collect_edge` as an entry of the `collectors` list. -/
def edgeSpec (env : Env) : CollectorSpec :=
  ⟨"collect_edge", fun s =>
    if env.edCrash then none else some (collect_chromium_family s "edge" env.edFS)⟩

/-- `collect_safari` as an entry of the `collectors` list. -/
def safariSpec (env : Env) : CollectorSpec :=
  ⟨"collect_safari", fun s =>
    if env.sfCrash then none else some (collect_safari s env.sfFS)⟩

/-- `collectors = [collect_firefox, collect_chrome, collect_edge,
collect_safari]`. -/
def collectors (env : Env) : List CollectorSpec :=
  [firefoxSpec env, chromeSpec env, edgeSpec env, safariSpec env]

/-! ## Concrete run fixtures used by scenario theorems -/

/-- An environment in which the firefox collector raises and every other
backend is empty. -/
def ffCrashEnv : Env := ⟨none, true, [], false, [], false, none, false⟩

/-- An environment in which the chrome collector raises and every other
backend is empty. -/
def chCrashEnv : Env := ⟨none, false, [], true, [], false, none, false⟩

/-- Whether the `i`-th collector of the `collectors` list raises in the
given environment. -/
def crashes (env : Env) : Fin 4 → Bool
  | ⟨0, _⟩ => env.ffCrash
  | ⟨1, _⟩ => env.chCrash
  | ⟨2, _⟩ => env.edCrash
  | ⟨3, _⟩ => env.sfCrash
  | ⟨_ + 4, h⟩ => absurd h (by omega)

/-- The watermark/summary key of the `i`-th collector of the
`collectors` list. -/
def sourceKey : Fin 4 → String
  | ⟨0, _⟩ => "firefox"
  | ⟨1, _⟩ => "chrome"
  | ⟨2, _⟩ => "edge"
  | ⟨3, _⟩ => "safari"
  | ⟨_ + 4, h⟩ => absurd h (by omega)

/-- A persisted watermark mapping holding `{"firefox": 1700000000.0}`. -/
def wmStateFx : WmState :=
  fun k => if k = "firefox" then some 1700000000 else none

/-- The event row produced by the duplicate-collection fixture. -/
def dupEvent : Event := ⟨"firefox", "p", "https://dup/", "T", 1700000050⟩

/-- An environment whose firefox backend holds one row that converts
exactly to `dupEvent`; all other backends are empty. -/
def dupBackendEnv : Env :=
  ⟨some [⟨"p", some [⟨"https://dup/", some "T", 1700000050000000⟩]⟩], false,
   [], false, [], false, none, false⟩

/-- Initial logs in which the firefox CSV already contains `dupEvent`. -/
def dupLogs : String → List Event :=
  fun k => if k = "firefox" then [dupEvent] else []

/-! ## Lemmas about the numeric helpers -/

lemma roundHalfEven_ge_floor (q : ℚ) : ⌊q⌋ ≤ roundHalfEven q := by
  unfold roundHalfEven
  split
  · exact le_refl _
  · split
    · omega
    · split <;> omega

lemma abs_roundHalfEven_sub (q : ℚ) : |(roundHalfEven q : ℚ) - q| ≤ 1/2 := by
  have hfl : (⌊q⌋ : ℚ) + Int.fract q = q := Int.floor_add_fract q
  have h0 : 0 ≤ Int.fract q := Int.fract_nonneg q
  have h1 : Int.fract q < 1 := Int.fract_lt_one q
  have hc : ((⌊q⌋ + 1 : ℤ) : ℚ) = (⌊q⌋ : ℚ) + 1 := by push_cast; ring
  unfold roundHalfEven
  split
  case isTrue h => rw [abs_le]; constructor <;> linarith
  case isFalse h =>
    have h' : 1/2 ≤ Int.fract q := not_lt.mp h
    split
    case isTrue h2 => rw [hc, abs_le]; constructor <;> linarith
    case isFalse h2 =>
      have heq : Int.fract q = 1/2 := le_antisymm (not_lt.mp h2) h'
      split
      · rw [abs_le]; constructor <;> linarith
      · rw [hc, abs_le]; constructor <;> linarith

lemma abs_roundMs_sub (q : ℚ) : |roundMs q - q| ≤ 1/2000 := by
  have h := abs_roundHalfEven_sub (q * 1000)
  unfold roundMs
  have heq : (roundHalfEven (q * 1000) : ℚ) / 1000 - q
      = ((roundHalfEven (q * 1000) : ℚ) - q * 1000) / 1000 := by ring
  rw [heq, abs_div, abs_of_pos (by norm_num : (0:ℚ) < 1000)]
  linarith

lemma le_roundMs_of_le (n : ℤ) (q : ℚ) (h : (n : ℚ) / 1000 ≤ q) :
    (n : ℚ) / 1000 ≤ roundMs q := by
  unfold roundMs
  have h1 : (n : ℚ) ≤ q * 1000 := by linarith
  have h3 : n ≤ roundHalfEven (q * 1000) :=
    le_trans (Int.le_floor.mpr h1) (roundHalfEven_ge_floor _)
  have h4 : (n : ℚ) ≤ (roundHalfEven (q * 1000) : ℚ) := by exact_mod_cast h3
  linarith

lemma truncInt_mono {a b : ℚ} (h : a ≤ b) : truncInt a ≤ truncInt b := by
  unfold truncInt
  split
  case isTrue ha =>
    rw [if_pos (le_trans ha h)]
    exact Int.floor_le_floor h
  case isFalse ha =>
    split
    case isTrue hb =>
      have h1 : ⌈a⌉ ≤ (0 : ℤ) := Int.ceil_le.mpr (by exact_mod_cast le_of_not_le ha)
      have h2 : (0 : ℤ) ≤ ⌊b⌋ := Int.le_floor.mpr (by exact_mod_cast hb)
      omega
    case isFalse hb => exact Int.ceil_le_ceil h

lemma truncInt_intCast (n : ℤ) : truncInt (n : ℚ) = n := by
  unfold truncInt
  split <;> simp

lemma truncInt_nonneg {q : ℚ} (h : 0 ≤ q) : 0 ≤ truncInt q := by
  unfold truncInt
  rw [if_pos h]
  exact Int.le_floor.mpr (by exact_mod_cast h)

lemma firefoxParam_mono {a b : ℚ} (h : a ≤ b) : firefoxParam a ≤ firefoxParam b :=
  truncInt_mono (mul_le_mul_of_nonneg_right h (by norm_num))

lemma chromiumParam_mono {a b : ℚ} (h : a ≤ b) : chromiumParam a ≤ chromiumParam b := by
  unfold chromiumParam
  split
  case isTrue ha =>
    rw [if_pos (lt_of_lt_of_le ha h)]
    exact truncInt_mono (mul_le_mul_of_nonneg_right (by linarith) (by norm_num))
  case isFalse ha =>
    split
    case isTrue hb =>
      refine truncInt_nonneg ?_
      have : (0:ℚ) < b - EPOCH_1601_TS := by unfold EPOCH_1601_TS; linarith
      positivity
    case isFalse hb => exact le_refl 0

/-! ## Lemmas about the watermark dictionary -/

lemma getWm_setWm_self (s : WmState) (k : String) (v : ℚ) :
    getWm (setWm s k v) k = v := by simp [getWm, setWm]

lemma setWm_apply_of_ne (s : WmState) (k : String) (v : ℚ) {k2 : String}
    (h : k2 ≠ k) : setWm s k v k2 = s k2 := by simp [setWm, h]

lemma setWm_apply_self (s : WmState) (k : String) (v : ℚ) :
    setWm s k v k = some v := by simp [setWm]

lemma setWm_eq_self {s : WmState} {k : String} {v : ℚ} (h : s k = some v) :
    setWm s k v = s := by
  funext k2
  by_cases h2 : k2 = k
  · subst h2; rw [setWm_apply_self, h]
  · exact setWm_apply_of_ne s k v h2

/-! ## Lemmas about `maxTs` -/

lemma le_foldl_maxTs (es : List Event) :
    ∀ a : ℚ, a ≤ es.foldl (fun b x => max b x.ts_unix) a := by
  induction es with
  | nil => intro a; exact le_refl a
  | cons x es ih =>
    intro a
    rw [List.foldl_cons]
    exact le_trans (le_max_left a x.ts_unix) (ih (max a x.ts_unix))

lemma mem_le_foldl_maxTs (es : List Event) :
    ∀ (a : ℚ) (x : Event), x ∈ es →
      x.ts_unix ≤ es.foldl (fun b y => max b y.ts_unix) a := by
  induction es with
  | nil => intro a x hx; simp at hx
  | cons y es ih =>
    intro a x hx
    rw [List.foldl_cons]
    rcases List.mem_cons.mp hx with h | h
    · subst h; exact le_trans (le_max_right a x.ts_unix) (le_foldl_maxTs es _)
    · exact ih _ x h

lemma foldl_maxTs_le (es : List Event) :
    ∀ a B : ℚ, a ≤ B → (∀ x ∈ es, x.ts_unix ≤ B) →
      es.foldl (fun b y => max b y.ts_unix) a ≤ B := by
  induction es with
  | nil => intro a B ha _; exact ha
  | cons y es ih =>
    intro a B ha h
    rw [List.foldl_cons]
    exact ih _ _ (max_le ha (h y (List.mem_cons_self y es)))
      (fun x hx => h x (List.mem_cons_of_mem y hx))

lemma le_maxTs {l : List Event} {e : Event} (h : e ∈ l) : e.ts_unix ≤ maxTs l := by
  cases l with
  | nil => simp at h
  | cons x es =>
    unfold maxTs
    rcases List.mem_cons.mp h with h1 | h1
    · subst h1; exact le_foldl_maxTs es _
    · exact mem_le_foldl_maxTs es _ _ h1

lemma maxTs_le {l : List Event} {B : ℚ} (hne : l ≠ [])
    (h : ∀ e ∈ l, e.ts_unix ≤ B) : maxTs l ≤ B := by
  cases l with
  | nil => exact absurd rfl hne
  | cons x es =>
    exact foldl_maxTs_le es _ B (h x (List.mem_cons_self x es))
      (fun e he => h e (List.mem_cons_of_mem x he))

lemma le_maxTs_of_forall {l : List Event} {B : ℚ} (hne : l ≠ [])
    (h : ∀ e ∈ l, B ≤ e.ts_unix) : B ≤ maxTs l := by
  cases l with
  | nil => exact absurd rfl hne
  | cons x es =>
    exact le_trans (h x (List.mem_cons_self x es)) (le_foldl_maxTs es _)

/-! ## Lemmas about the CSV writer -/

lemma write_csv_append_nil (log : List Event) :
    write_csv_append [] log = (log, 0) := by
  simp [write_csv_append]

lemma write_csv_append_all_present {rows log : List Event}
    (h : ∀ r ∈ rows, csvKey r ∈ log.map csvKey) :
    write_csv_append rows log = (log, 0) := by
  unfold write_csv_append
  have hf : rows.filter (fun r => decide (csvKey r ∉ log.map csvKey)) = [] := by
    rw [List.filter_eq_nil_iff]
    intro r hr
    simp only [decide_eq_true_eq, Decidable.not_not]
    exact h r hr
  show (log ++ rows.filter fun r => decide (csvKey r ∉ log.map csvKey),
    (rows.filter fun r => decide (csvKey r ∉ log.map csvKey)).length) = (log, 0)
  rw [hf]
  simp

lemma write_csv_append_mem {rows log : List Event} {r : Event} (hr : r ∈ rows) :
    csvKey r ∈ (write_csv_append rows log).1.map csvKey := by
  unfold write_csv_append
  simp only [List.map_append, List.mem_append]
  by_cases h : csvKey r ∈ log.map csvKey
  · exact Or.inl h
  · right
    exact List.mem_map_of_mem csvKey (List.mem_filter.mpr ⟨hr, by simpa using h⟩)

lemma write_csv_append_count_le (rows log : List Event) :
    (write_csv_append rows log).2 ≤ rows.length :=
  List.length_filter_le _ _

/-! ## Lemmas about `mkCollector` -/

lemma mkCollector_name (key : String) (R : ℚ → List Event) (s : WmState) :
    (mkCollector key R s).name = key := rfl

lemma mkCollector_rows (key : String) (R : ℚ → List Event) (s : WmState) :
    (mkCollector key R s).rows = R (getWm s key) := rfl

lemma mkCollector_prev (key : String) (R : ℚ → List Event) (s : WmState) :
    (mkCollector key R s).prev = getWm s key := rfl

lemma mkCollector_state_of_empty {key : String} {R : ℚ → List Event} {s : WmState}
    (h : R (getWm s key) = []) : (mkCollector key R s).state = s := by
  unfold mkCollector
  simp [h]

lemma mkCollector_state_of_ne {key : String} {R : ℚ → List Event} {s : WmState}
    (h : R (getWm s key) ≠ []) :
    (mkCollector key R s).state
      = setWm s key (max (getWm s key) (maxTs (R (getWm s key)))) := by
  unfold mkCollector
  simp only [List.isEmpty_iff]
  rw [if_neg h]

lemma mkCollector_state_frame {key : String} {R : ℚ → List Event} {s : WmState}
    {k : String} (h : k ≠ key) : (mkCollector key R s).state k = s k := by
  by_cases h1 : R (getWm s key) = []
  · rw [mkCollector_state_of_empty h1]
  · rw [mkCollector_state_of_ne h1]
    exact setWm_apply_of_ne _ _ _ h

lemma getWm_mkCollector_le (key : String) (R : ℚ → List Event) (s : WmState)
    (k : String) : getWm s k ≤ getWm (mkCollector key R s).state k := by
  by_cases hk : k = key
  · subst hk
    by_cases h : R (getWm s k) = []
    · rw [mkCollector_state_of_empty h]
    · rw [mkCollector_state_of_ne h, getWm_setWm_self]
      exact le_max_left _ _
  · unfold getWm
    rw [mkCollector_state_frame hk]

lemma mkCollector_state_self_of_ne {key : String} {R : ℚ → List Event}
    {s : WmState} (h : R (getWm s key) ≠ []) :
    (mkCollector key R s).state key
      = some (max (getWm s key) (maxTs (R (getWm s key)))) := by
  rw [mkCollector_state_of_ne h, setWm_apply_self]

/-- Core second-run lemma for one collector: if the result-row function is
antitone along the watermark update (hypothesis `hP`), then running the
collector again from any state `t` whose entry at `key` agrees with the
first run's post-state leaves `t` unchanged and only re-collects rows of
the first run. -/
lemma mkCollector_idem {key : String} {R : ℚ → List Event}
    (hP : ∀ last, R last ≠ [] →
      ∀ e ∈ R (max last (maxTs (R last))), e ∈ R last)
    (s t : WmState) (ht : t key = (mkCollector key R s).state key) :
    (mkCollector key R t).state = t ∧
    ∀ e ∈ (mkCollector key R t).rows, e ∈ (mkCollector key R s).rows := by
  by_cases h1 : R (getWm s key) = []
  case pos =>
    rw [mkCollector_state_of_empty h1] at ht
    have hget : getWm t key = getWm s key := by unfold getWm; rw [ht]
    have h2 : R (getWm t key) = [] := by rw [hget]; exact h1
    refine ⟨mkCollector_state_of_empty h2, ?_⟩
    intro e he
    rw [mkCollector_rows, h2] at he
    simp at he
  case neg =>
    have hself : (mkCollector key R s).state key
        = some (max (getWm s key) (maxTs (R (getWm s key)))) :=
      mkCollector_state_self_of_ne h1
    rw [hself] at ht
    have hgett : getWm t key = max (getWm s key) (maxTs (R (getWm s key))) := by
      unfold getWm; rw [ht]; rfl
    have hsub : ∀ e ∈ R (getWm t key), e ∈ R (getWm s key) := by
      rw [hgett]; exact hP _ h1
    constructor
    · by_cases h2 : R (getWm t key) = []
      · exact mkCollector_state_of_empty h2
      · rw [mkCollector_state_of_ne h2]
        have hle : maxTs (R (getWm t key)) ≤ maxTs (R (getWm s key)) :=
          maxTs_le h2 (fun e he => le_maxTs (hsub e he))
        rw [hgett] at hle
        have hmax : max (getWm t key) (maxTs (R (getWm t key)))
            = max (getWm s key) (maxTs (R (getWm s key))) := by
          rw [hgett]
          exact max_eq_left (le_trans hle (le_max_right _ _))
        rw [hmax]
        exact setWm_eq_self ht
    · intro e he
      rw [mkCollector_rows] at he ⊢
      exact hsub e he

/-! ## Membership lemmas for the three result-row functions -/

lemma collect_firefox_def (s : WmState) (fs : Option (List FxProfile)) :
    collect_firefox s fs = mkCollector "firefox" (fxResults fs) s := rfl

lemma collect_firefox_rows (s : WmState) (fs : Option (List FxProfile)) :
    (collect_firefox s fs).rows = fxResults fs (getWm s "firefox") := rfl

lemma collect_chromium_family_def (s : WmState) (familyKey : String)
    (ps : List ChProfile) :
    collect_chromium_family s familyKey ps
      = mkCollector familyKey (chResults familyKey ps) s := rfl

lemma collect_chromium_family_rows (s : WmState) (familyKey : String)
    (ps : List ChProfile) :
    (collect_chromium_family s familyKey ps).rows
      = chResults familyKey ps (getWm s familyKey) := rfl

lemma collect_safari_def (s : WmState) (fs : Option (List SfRow)) :
    collect_safari s fs = mkCollector "safari" (sfResults fs) s := rfl

lemma collect_safari_rows (s : WmState) (fs : Option (List SfRow)) :
    (collect_safari s fs).rows = sfResults fs (getWm s "safari") := rfl

lemma fxResults_mem_of_param_le {fs : Option (List FxProfile)} {l1 l2 : ℚ}
    (h : firefoxParam l1 ≤ firefoxParam l2) {e : Event}
    (he : e ∈ fxResults fs l2) : e ∈ fxResults fs l1 := by
  cases fs with
  | none => simp [fxResults] at he
  | some profiles =>
    simp only [fxResults] at he ⊢
    rw [List.mem_flatMap] at he ⊢
    obtain ⟨p, hp, hep⟩ := he
    refine ⟨p, hp, ?_⟩
    obtain ⟨r, hr, hmk⟩ := List.mem_filterMap.mp hep
    obtain ⟨hrm, hcond⟩ := List.mem_filter.mp hr
    rw [Bool.and_eq_true, decide_eq_true_eq] at hcond
    refine List.mem_filterMap.mpr ⟨r, List.mem_filter.mpr ⟨hrm, ?_⟩, hmk⟩
    rw [Bool.and_eq_true, decide_eq_true_eq]
    exact ⟨hcond.1, lt_of_le_of_lt h hcond.2⟩

lemma chResults_mem_of_param_le {familyKey : String} {profiles : List ChProfile}
    {l1 l2 : ℚ} (h : chromiumParam l1 ≤ chromiumParam l2) {e : Event}
    (he : e ∈ chResults familyKey profiles l2) :
    e ∈ chResults familyKey profiles l1 := by
  unfold chResults at he ⊢
  rw [List.mem_flatMap] at he ⊢
  obtain ⟨p, hp, hep⟩ := he
  refine ⟨p, hp, ?_⟩
  obtain ⟨r, hr, hmk⟩ := List.mem_filterMap.mp hep
  obtain ⟨hrm, hcond⟩ := List.mem_filter.mp hr
  rw [Bool.and_eq_true, decide_eq_true_eq] at hcond
  refine List.mem_filterMap.mpr ⟨r, List.mem_filter.mpr ⟨hrm, ?_⟩, hmk⟩
  rw [Bool.and_eq_true, decide_eq_true_eq]
  exact ⟨hcond.1, lt_of_le_of_lt h hcond.2⟩

lemma sfResults_mem_of_param_le {fs : Option (List SfRow)} {l1 l2 : ℚ}
    (h : safariParam l1 ≤ safariParam l2) {e : Event}
    (he : e ∈ sfResults fs l2) : e ∈ sfResults fs l1 := by
  cases fs with
  | none => simp [sfResults] at he
  | some rows =>
    simp only [sfResults] at he ⊢
    obtain ⟨r, hr, hmk⟩ := List.mem_filterMap.mp he
    obtain ⟨hrm, hcond⟩ := List.mem_filter.mp hr
    rw [Bool.and_eq_true, decide_eq_true_eq] at hcond
    refine List.mem_filterMap.mpr ⟨r, List.mem_filter.mpr ⟨hrm, ?_⟩, hmk⟩
    rw [Bool.and_eq_true, decide_eq_true_eq]
    exact ⟨hcond.1, lt_of_le_of_lt h hcond.2⟩

lemma fx_Pmain (fs : Option (List FxProfile)) :
    ∀ last, fxResults fs last ≠ [] →
      ∀ e ∈ fxResults fs (max last (maxTs (fxResults fs last))),
        e ∈ fxResults fs last :=
  fun _ _ _ he =>
    fxResults_mem_of_param_le (firefoxParam_mono (le_max_left _ _)) he

lemma ch_Pmain (familyKey : String) (profiles : List ChProfile) :
    ∀ last, chResults familyKey profiles last ≠ [] →
      ∀ e ∈ chResults familyKey profiles
        (max last (maxTs (chResults familyKey profiles last))),
        e ∈ chResults familyKey profiles last :=
  fun _ _ _ he =>
    chResults_mem_of_param_le (chromiumParam_mono (le_max_left _ _)) he

/-- Any Safari row collected while the watermark was `≤ 0` (so the native
query parameter was `0`) has a canonical timestamp at or above the 2001
epoch: the query demands `visit_time > 0` and the conversion adds the
positive 2001-epoch offset. -/
lemma sf_mem_ts_ge {fs : Option (List SfRow)} {last : ℚ} (hlast : last ≤ 0)
    {e : Event} (he : e ∈ sfResults fs last) : EPOCH_2001_TS ≤ e.ts_unix := by
  cases fs with
  | none => simp [sfResults] at he
  | some rows =>
    simp only [sfResults] at he
    obtain ⟨r, hr, hmk⟩ := List.mem_filterMap.mp he
    obtain ⟨_, hcond⟩ := List.mem_filter.mp hr
    rw [Bool.and_eq_true, decide_eq_true_eq] at hcond
    have hparam : safariParam last = 0 := by
      unfold safariParam; rw [if_neg (not_lt.mpr hlast)]
    have hv : 0 < r.visit_time := by rw [hparam] at hcond; exact hcond.2
    unfold sfEvent at hmk
    by_cases hts : safari_time_to_unix_s r.visit_time ≤ 0
    · rw [if_pos hts] at hmk; exact absurd hmk (by simp)
    · rw [if_neg hts] at hmk
      obtain rfl := Option.some.inj hmk
      push_neg at hts
      have hval : safari_time_to_unix_s r.visit_time
          = EPOCH_2001_TS + safariSeconds r.visit_time := by
        unfold safari_time_to_unix_s at hts ⊢
        by_cases hr2 : tsInRange (EPOCH_2001_TS + safariSeconds r.visit_time)
        · rw [if_pos hr2]
        · rw [if_neg hr2] at hts; exact absurd hts (lt_irrefl 0)
      have hsec : 0 ≤ safariSeconds r.visit_time := by
        unfold safariSeconds
        have hz : (0:ℤ) ≤ roundHalfEven (r.visit_time * 1000000) := by
          refine le_trans ?_ (roundHalfEven_ge_floor _)
          exact Int.le_floor.mpr (by positivity)
        have hzq : (0:ℚ) ≤ (roundHalfEven (r.visit_time * 1000000) : ℚ) := by
          exact_mod_cast hz
        positivity
      have hEle : EPOCH_2001_TS ≤ safari_time_to_unix_s r.visit_time := by
        rw [hval]; linarith
      show EPOCH_2001_TS ≤ roundMs (safari_time_to_unix_s r.visit_time)
      have hE : ((978307200000 : ℤ) : ℚ) / 1000 = EPOCH_2001_TS := by
        unfold EPOCH_2001_TS; norm_num
      have h2 := le_roundMs_of_le 978307200000 (safari_time_to_unix_s r.visit_time)
        (by rw [hE]; exact hEle)
      rw [hE] at h2
      exact h2

lemma sf_Pmain (fs : Option (List SfRow)) :
    ∀ last, sfResults fs last ≠ [] →
      ∀ e ∈ sfResults fs (max last (maxTs (sfResults fs last))),
        e ∈ sfResults fs last := by
  intro last hne e he
  by_cases hpos : 0 < last
  · refine sfResults_mem_of_param_le ?_ he
    unfold safariParam
    rw [if_pos hpos, if_pos (lt_of_lt_of_le hpos (le_max_left _ _))]
    have := le_max_left last (maxTs (sfResults fs last))
    linarith
  · have hlast : last ≤ 0 := not_lt.mp hpos
    have hm : EPOCH_2001_TS ≤ maxTs (sfResults fs last) :=
      le_maxTs_of_forall hne (fun e2 he2 => sf_mem_ts_ge hlast he2)
    refine sfResults_mem_of_param_le ?_ he
    unfold safariParam
    have hEpos : (0:ℚ) < EPOCH_2001_TS := by unfold EPOCH_2001_TS; norm_num
    have hmaxpos : 0 < max last (maxTs (sfResults fs last)) :=
      lt_of_lt_of_le (lt_of_lt_of_le hEpos hm) (le_max_right _ _)
    rw [if_neg hpos, if_pos hmaxpos]
    have hEm : EPOCH_2001_TS ≤ max last (maxTs (sfResults fs last)) :=
      le_trans hm (le_max_right _ _)
    linarith

/-! ## Coordinator-level lemmas -/

/-- A collector entry of the `collectors` list is, for the whole run,
either the raising collector (its `except` fallback name is `key`) or the
plain collector body with source key `key` and result rows `R`. -/
def SpecShape (c : CollectorSpec) (key : String) (R : ℚ → List Event) : Prop :=
  stripCollect c.fnName = key ∧
  ((∀ s, c.run s = none) ∨ (∀ s, c.run s = some (mkCollector key R s)))

lemma firefoxSpec_shape (env : Env) :
    SpecShape (firefoxSpec env) "firefox" (fxResults env.ffFS) := by
  refine ⟨?_, ?_⟩
  · show stripCollect "collect_firefox" = "firefox"
    decide
  · cases h : env.ffCrash
    · exact Or.inr fun s => by simp [firefoxSpec, h, collect_firefox]
    · exact Or.inl fun s => by simp [firefoxSpec, h]

lemma chromeSpec_shape (env : Env) :
    SpecShape (chromeSpec env) "chrome" (chResults "chrome" env.chFS) := by
  refine ⟨?_, ?_⟩
  · show stripCollect "collect_chrome" = "chrome"
    decide
  · cases h : env.chCrash
    · exact Or.inr fun s => by simp [chromeSpec, h, collect_chromium_family]
    · exact Or.inl fun s => by simp [chromeSpec, h]

lemma edgeSpec_shape (env : Env) :
    SpecShape (edgeSpec env) "edge" (chResults "edge" env.edFS) := by
  refine ⟨?_, ?_⟩
  · show stripCollect "collect_edge" = "edge"
    decide
  · cases h : env.edCrash
    · exact Or.inr fun s => by simp [edgeSpec, h, collect_chromium_family]
    · exact Or.inl fun s => by simp [edgeSpec, h]

lemma safariSpec_shape (env : Env) :
    SpecShape (safariSpec env) "safari" (sfResults env.sfFS) := by
  refine ⟨?_, ?_⟩
  · show stripCollect "collect_safari" = "safari"
    decide
  · cases h : env.sfCrash
    · exact Or.inr fun s => by simp [safariSpec, h, collect_safari]
    · exact Or.inl fun s => by simp [safariSpec, h]

lemma runOutcome_some {a : RunAcc} {c : CollectorSpec} {o : Outcome}
    (h : c.run a.state = some o) : runOutcome a c = o := by
  unfold runOutcome
  rw [h]

lemma runOutcome_none {a : RunAcc} {c : CollectorSpec}
    (h : c.run a.state = none) :
    runOutcome a c
      = ⟨stripCollect c.fnName, [], getWm a.state c.fnName, a.state⟩ := by
  unfold runOutcome
  rw [h]

lemma stepCollector_eq (a : RunAcc) (c : CollectorSpec) :
    stepCollector a c =
      ⟨(runOutcome a c).state,
       fun k => if k = (runOutcome a c).name
         then (write_csv_append (runOutcome a c).rows
           (a.logs (runOutcome a c).name)).1
         else a.logs k,
       a.summaries ++ [⟨(runOutcome a c).name,
         (write_csv_append (runOutcome a c).rows
           (a.logs (runOutcome a c).name)).2,
         (runOutcome a c).prev,
         ((runOutcome a c).state ((runOutcome a c).name)).getD
           (runOutcome a c).prev⟩],
       a.allRows ++ (runOutcome a c).rows⟩ := rfl

lemma stepCollector_some {a : RunAcc} {c : CollectorSpec} {o : Outcome}
    (h : c.run a.state = some o) :
    stepCollector a c =
      ⟨o.state,
       fun k => if k = o.name then (write_csv_append o.rows (a.logs o.name)).1
         else a.logs k,
       a.summaries ++ [⟨o.name, (write_csv_append o.rows (a.logs o.name)).2, o.prev,
         (o.state o.name).getD o.prev⟩],
       a.allRows ++ o.rows⟩ := by
  rw [stepCollector_eq, runOutcome_some h]

lemma stepCollector_none {a : RunAcc} {c : CollectorSpec}
    (h : c.run a.state = none) :
    stepCollector a c =
      ⟨a.state, a.logs,
       a.summaries ++ [⟨stripCollect c.fnName, 0, getWm a.state c.fnName,
         (a.state (stripCollect c.fnName)).getD (getWm a.state c.fnName)⟩],
       a.allRows⟩ := by
  rw [stepCollector_eq, runOutcome_none h]
  dsimp only
  rw [write_csv_append_nil]
  rw [RunAcc.mk.injEq]
  refine ⟨rfl, ?_, rfl, by simp⟩
  funext k
  by_cases h2 : k = stripCollect c.fnName
  · rw [if_pos h2, h2]
  · rw [if_neg h2]

lemma step_state_frame {a : RunAcc} {c : CollectorSpec} {key : String}
    {R : ℚ → List Event} (hs : SpecShape c key R) {k : String} (hk : k ≠ key) :
    (stepCollector a c).state k = a.state k := by
  rcases hs.2 with hnone | hsome
  · rw [stepCollector_none (hnone a.state)]
  · rw [stepCollector_some (hsome a.state)]
    exact mkCollector_state_frame hk

lemma step_logs_frame {a : RunAcc} {c : CollectorSpec} {key : String}
    {R : ℚ → List Event} (hs : SpecShape c key R) {k : String} (hk : k ≠ key) :
    (stepCollector a c).logs k = a.logs k := by
  rcases hs.2 with hnone | hsome
  · rw [stepCollector_none (hnone a.state)]
  · rw [stepCollector_some (hsome a.state)]
    dsimp only
    rw [mkCollector_name, if_neg hk]

lemma step_state_mono {a : RunAcc} {c : CollectorSpec} {key : String}
    {R : ℚ → List Event} (hs : SpecShape c key R) (k : String) :
    getWm a.state k ≤ getWm (stepCollector a c).state k := by
  rcases hs.2 with hnone | hsome
  · rw [stepCollector_none (hnone a.state)]
  · rw [stepCollector_some (hsome a.state)]
    exact getWm_mkCollector_le key R a.state k

/-- Second-run no-op: if the accumulator `b` agrees, at the collector's
key, with the state and log this collector produced in a previous run from
accumulator `a`, then running the collector again leaves state and logs
unchanged and its summary entry reports zero new rows. -/
lemma step_idem {c : CollectorSpec} {key : String} {R : ℚ → List Event}
    (hs : SpecShape c key R)
    (hP : ∀ last, R last ≠ [] → ∀ e ∈ R (max last (maxTs (R last))), e ∈ R last)
    (a b : RunAcc)
    (hbs : b.state key = (stepCollector a c).state key)
    (hbl : b.logs key = (stepCollector a c).logs key) :
    (stepCollector b c).state = b.state ∧
    (stepCollector b c).logs = b.logs ∧
    ∃ en : SummaryEntry, (stepCollector b c).summaries = b.summaries ++ [en] ∧
      en.new_rows = 0 ∧ en.browser = key := by
  obtain ⟨hstrip, hcases⟩ := hs
  rcases hcases with hnone | hsome
  · rw [stepCollector_none (hnone b.state)]
    exact ⟨rfl, rfl, ⟨_, by rw [hstrip], rfl, rfl⟩⟩
  · have hso := hsome a.state
    have hsb := hsome b.state
    rw [stepCollector_some hso] at hbs hbl
    dsimp only at hbs hbl
    have hidem := mkCollector_idem hP a.state b.state hbs
    rw [mkCollector_name, if_pos rfl] at hbl
    have hpresent : ∀ e ∈ (mkCollector key R b.state).rows,
        csvKey e ∈ (b.logs key).map csvKey := by
      intro e he
      rw [hbl]
      exact write_csv_append_mem (hidem.2 e he)
    have hw : write_csv_append (mkCollector key R b.state).rows (b.logs key)
        = (b.logs key, 0) := write_csv_append_all_present hpresent
    rw [stepCollector_some hsb]
    dsimp only
    rw [mkCollector_name, hw]
    refine ⟨hidem.1, ?_, ?_⟩
    · funext k
      dsimp only
      by_cases h2 : k = key
      · rw [if_pos h2, h2]
      · rw [if_neg h2]
    · exact ⟨_, rfl, rfl, rfl⟩

/-- A collector invocation that produces no rows leaves state, logs and
`all_rows` unchanged and appends one summary entry with zero new rows. -/
lemma stepCollector_no_rows {a : RunAcc} {c : CollectorSpec} {key : String}
    {R : ℚ → List Event}
    (h : c.run a.state = some (mkCollector key R a.state))
    (hempty : R (getWm a.state key) = []) :
    ∃ en : SummaryEntry,
      stepCollector a c = ⟨a.state, a.logs, a.summaries ++ [en], a.allRows⟩ ∧
      en.new_rows = 0 := by
  refine ⟨⟨key, 0, (mkCollector key R a.state).prev,
    ((mkCollector key R a.state).state key).getD
      (mkCollector key R a.state).prev⟩, ?_, rfl⟩
  rw [stepCollector_some h]
  rw [RunAcc.mk.injEq]
  refine ⟨mkCollector_state_of_empty hempty, ?_, ?_, ?_⟩
  · funext k
    rw [mkCollector_name,
        show (mkCollector key R a.state).rows = [] from hempty,
        write_csv_append_nil]
    by_cases h2 : k = key
    · rw [if_pos h2, h2]
    · rw [if_neg h2]
  · rw [mkCollector_name,
        show (mkCollector key R a.state).rows = [] from hempty,
        write_csv_append_nil]
  · rw [show (mkCollector key R a.state).rows = [] from hempty]
    exact List.append_nil _

/-- `stepCollector` reads the accumulator only through `state` and `logs`;
`summaries` and `all_rows` are append-only. -/
lemma stepCollector_acc (s : WmState) (l : String → List Event)
    (sm : List SummaryEntry) (ar : List Event) (c : CollectorSpec) :
    stepCollector ⟨s, l, sm, ar⟩ c =
      ⟨(stepCollector ⟨s, l, [], []⟩ c).state,
       (stepCollector ⟨s, l, [], []⟩ c).logs,
       sm ++ (stepCollector ⟨s, l, [], []⟩ c).summaries,
       ar ++ (stepCollector ⟨s, l, [], []⟩ c).allRows⟩ := rfl

/-- Folding the coordinator loop from an accumulator with non-empty
`summaries`/`all_rows` just prepends them to the result of folding from
empty ones. -/
lemma foldl_step_shift (cs : List CollectorSpec) :
    ∀ (s : WmState) (l : String → List Event) (sm : List SummaryEntry)
      (ar : List Event),
      cs.foldl stepCollector ⟨s, l, sm, ar⟩ =
        ⟨(cs.foldl stepCollector ⟨s, l, [], []⟩).state,
         (cs.foldl stepCollector ⟨s, l, [], []⟩).logs,
         sm ++ (cs.foldl stepCollector ⟨s, l, [], []⟩).summaries,
         ar ++ (cs.foldl stepCollector ⟨s, l, [], []⟩).allRows⟩ := by
  induction cs with
  | nil =>
    intro s l sm ar
    rw [List.foldl_nil, List.foldl_nil]
    rw [List.append_nil, List.append_nil]
  | cons c cs ih =>
    intro s l sm ar
    rw [List.foldl_cons, List.foldl_cons, stepCollector_acc s l sm ar c]
    conv_lhs => rw [ih]
    conv_rhs => rw [stepCollector_acc s l [] [] c]
    conv_rhs => rw [ih]
    rw [RunAcc.mk.injEq]
    refine ⟨rfl, rfl, ?_, ?_⟩ <;> simp

/-- Removing the element sitting between two list fragments. -/
lemma eraseIdx_middle {α : Type} (l1 l2 : List α) (x : α) :
    (l1 ++ [x] ++ l2).eraseIdx l1.length = l1 ++ l2 := by
  induction l1 with
  | nil => rfl
  | cons a l ih =>
    show a :: ((l ++ [x] ++ l2).eraseIdx l.length) = a :: (l ++ l2)
    rw [ih]

/-- Reading the element sitting between two list fragments. -/
lemma drop_middle {α : Type} (l1 l2 : List α) (x : α) :
    ((l1 ++ [x] ++ l2).drop l1.length).head? = some x := by
  induction l1 with
  | nil => rfl
  | cons a l ih =>
    show ((l ++ [x] ++ l2).drop l.length).head? = some x
    exact ih

/-- A crashing collector at the head of the loop: the remaining fold sees
the same state and logs, and the only trace is one summary entry. -/
lemma foldl_crash_cons {c : CollectorSpec} (hcrash : ∀ s, c.run s = none)
    (suf : List CollectorSpec) (a : RunAcc) :
    (c :: suf).foldl stepCollector a
      = ⟨(suf.foldl stepCollector ⟨a.state, a.logs, [], []⟩).state,
         (suf.foldl stepCollector ⟨a.state, a.logs, [], []⟩).logs,
         a.summaries
           ++ [⟨stripCollect c.fnName, 0, getWm a.state c.fnName,
                (a.state (stripCollect c.fnName)).getD (getWm a.state c.fnName)⟩]
           ++ (suf.foldl stepCollector ⟨a.state, a.logs, [], []⟩).summaries,
         a.allRows ++ (suf.foldl stepCollector ⟨a.state, a.logs, [], []⟩).allRows⟩ := by
  rw [List.foldl_cons, stepCollector_none (hcrash a.state)]
  exact foldl_step_shift suf a.state a.logs
    (a.summaries ++ [⟨stripCollect c.fnName, 0, getWm a.state c.fnName,
      (a.state (stripCollect c.fnName)).getD (getWm a.state c.fnName)⟩]) a.allRows

/-- Fault isolation at an arbitrary loop position: a crashed collector's
iteration changes nothing the rest of the loop can see, so the run equals
the run with that collector removed, except for one zero-row summary
entry inserted at its position. -/
lemma crash_cons_run (c : CollectorSpec) (hcrash : ∀ s, c.run s = none)
    (suf : List CollectorSpec) (a : RunAcc) :
    ((c :: suf).foldl stepCollector a).state
      = (suf.foldl stepCollector a).state ∧
    ((c :: suf).foldl stepCollector a).logs
      = (suf.foldl stepCollector a).logs ∧
    ((c :: suf).foldl stepCollector a).allRows
      = (suf.foldl stepCollector a).allRows ∧
    ((c :: suf).foldl stepCollector a).summaries.eraseIdx a.summaries.length
      = (suf.foldl stepCollector a).summaries ∧
    ∃ en : SummaryEntry,
      (((c :: suf).foldl stepCollector a).summaries.drop
          a.summaries.length).head? = some en ∧
      en.browser = stripCollect c.fnName ∧ en.new_rows = 0 := by
  have hcc := foldl_crash_cons hcrash suf a
  have hsufA : suf.foldl stepCollector a
      = ⟨(suf.foldl stepCollector ⟨a.state, a.logs, [], []⟩).state,
         (suf.foldl stepCollector ⟨a.state, a.logs, [], []⟩).logs,
         a.summaries
           ++ (suf.foldl stepCollector ⟨a.state, a.logs, [], []⟩).summaries,
         a.allRows
           ++ (suf.foldl stepCollector ⟨a.state, a.logs, [], []⟩).allRows⟩ :=
    foldl_step_shift suf a.state a.logs a.summaries a.allRows
  refine ⟨?_, ?_, ?_, ?_,
    ⟨⟨stripCollect c.fnName, 0, getWm a.state c.fnName,
      (a.state (stripCollect c.fnName)).getD (getWm a.state c.fnName)⟩,
     ?_, rfl, rfl⟩⟩
  · rw [hcc, hsufA]
  · rw [hcc, hsufA]
  · rw [hcc, hsufA]
  · rw [hcc, hsufA]
    dsimp only
    exact eraseIdx_middle a.summaries _ _
  · rw [hcc]
    dsimp only
    exact drop_middle a.summaries _ _

/-- Every loop iteration appends exactly one summary entry, named after
the collector's key, whether or not the collector raised. -/
lemma step_summary_browser {c : CollectorSpec} {key : String}
    {R : ℚ → List Event} (hs : SpecShape c key R) (a : RunAcc) :
    ∃ en : SummaryEntry, (stepCollector a c).summaries = a.summaries ++ [en] ∧
      en.browser = key := by
  rcases hs.2 with hnone | hsome
  · rw [stepCollector_none (hnone a.state)]
    exact ⟨_, rfl, hs.1⟩
  · rw [stepCollector_some (hsome a.state)]
    exact ⟨_, rfl, mkCollector_name key R a.state⟩

/-! ## URL shape of collected events -/

lemma fxResults_mem_url {fs : Option (List FxProfile)} {last : ℚ} {e : Event}
    (he : e ∈ fxResults fs last) : likeHttp e.url = true := by
  cases fs with
  | none => simp [fxResults] at he
  | some profiles =>
    simp only [fxResults] at he
    rw [List.mem_flatMap] at he
    obtain ⟨p, hp, hep⟩ := he
    obtain ⟨r, hr, hmk⟩ := List.mem_filterMap.mp hep
    obtain ⟨hrm, hcond⟩ := List.mem_filter.mp hr
    rw [Bool.and_eq_true, decide_eq_true_eq] at hcond
    unfold fxEvent at hmk
    by_cases hts : firefox_time_to_unix_s r.visit_date ≤ 0
    · rw [if_pos hts] at hmk; exact absurd hmk (by simp)
    · rw [if_neg hts] at hmk
      obtain rfl := Option.some.inj hmk
      exact hcond.1

lemma chResults_mem_url {familyKey : String} {ps : List ChProfile} {last : ℚ}
    {e : Event} (he : e ∈ chResults familyKey ps last) : likeHttp e.url = true := by
  unfold chResults at he
  rw [List.mem_flatMap] at he
  obtain ⟨p, hp, hep⟩ := he
  obtain ⟨r, hr, hmk⟩ := List.mem_filterMap.mp hep
  obtain ⟨hrm, hcond⟩ := List.mem_filter.mp hr
  rw [Bool.and_eq_true, decide_eq_true_eq] at hcond
  unfold chEvent at hmk
  by_cases hts : chrome_time_to_unix_s r.visit_time ≤ 0
  · rw [if_pos hts] at hmk; exact absurd hmk (by simp)
  · rw [if_neg hts] at hmk
    obtain rfl := Option.some.inj hmk
    exact hcond.1

lemma sfResults_mem_url {fs : Option (List SfRow)} {last : ℚ} {e : Event}
    (he : e ∈ sfResults fs last) : likeHttp e.url = true := by
  cases fs with
  | none => simp [sfResults] at he
  | some rows =>
    simp only [sfResults] at he
    obtain ⟨r, hr, hmk⟩ := List.mem_filterMap.mp he
    obtain ⟨hrm, hcond⟩ := List.mem_filter.mp hr
    rw [Bool.and_eq_true, decide_eq_true_eq] at hcond
    unfold sfEvent at hmk
    by_cases hts : safari_time_to_unix_s r.visit_time ≤ 0
    · rw [if_pos hts] at hmk; exact absurd hmk (by simp)
    · rw [if_neg hts] at hmk
      obtain rfl := Option.some.inj hmk
      exact hcond.1

/-! ## Summary-count lemmas -/

lemma stepCollector_sum_le {a : RunAcc} (c : CollectorSpec)
    (h : (a.summaries.map (fun e => e.new_rows)).sum ≤ a.allRows.length) :
    ((stepCollector a c).summaries.map (fun e => e.new_rows)).sum
      ≤ (stepCollector a c).allRows.length := by
  rw [stepCollector_eq]
  dsimp only
  rw [List.map_append, List.sum_append, List.length_append]
  have h2 := write_csv_append_count_le (runOutcome a c).rows
    (a.logs ((runOutcome a c).name))
  simp only [List.map_cons, List.map_nil, List.sum_cons, List.sum_nil]
  omega

lemma foldl_sum_le (cs : List CollectorSpec) :
    ∀ a : RunAcc,
      (a.summaries.map (fun e => e.new_rows)).sum ≤ a.allRows.length →
      ((cs.foldl stepCollector a).summaries.map (fun e => e.new_rows)).sum
        ≤ (cs.foldl stepCollector a).allRows.length := by
  induction cs with
  | nil => intro a h; exact h
  | cons c cs ih =>
    intro a h
    rw [List.foldl_cons]
    exact ih _ (stepCollector_sum_le c h)

lemma stepCollector_summaries_length (a : RunAcc) (c : CollectorSpec) :
    (stepCollector a c).summaries.length = a.summaries.length + 1 := by
  rw [stepCollector_eq]
  simp

/-! ## Evaluation helpers for concrete inputs -/

lemma roundHalfEven_intCast (n : ℤ) : roundHalfEven (n : ℚ) = n := by
  unfold roundHalfEven
  norm_num [Int.fract_intCast, Int.floor_intCast]

lemma roundMs_eval {q : ℚ} {n : ℤ} (h1 : (n : ℚ) ≤ q * 1000)
    (h2 : q * 1000 < (n : ℚ) + 1/2) : roundMs q = (n : ℚ) / 1000 := by
  have hfl : ⌊q * 1000⌋ = n := by
    rw [Int.floor_eq_iff]
    exact ⟨h1, by linarith⟩
  have hfr : Int.fract (q * 1000) < 1/2 := by
    unfold Int.fract
    rw [hfl]
    linarith
  unfold roundMs roundHalfEven
  rw [if_pos hfr, hfl]

lemma safariSeconds_eval {q : ℚ} {n : ℤ} (h1 : (n : ℚ) ≤ q * 1000000)
    (h2 : q * 1000000 < (n : ℚ) + 1/2) : safariSeconds q = (n : ℚ) / 1000000 := by
  have hfl : ⌊q * 1000000⌋ = n := by
    rw [Int.floor_eq_iff]
    exact ⟨h1, by linarith⟩
  have hfr : Int.fract (q * 1000000) < 1/2 := by
    unfold Int.fract
    rw [hfl]
    linarith
  unfold safariSeconds roundHalfEven
  rw [if_pos hfr, hfl]

lemma firefox_time_eval {v : ℤ} (h : tsInRange ((v : ℚ) / 1000000)) :
    firefox_time_to_unix_s v = (v : ℚ) / 1000000 := by
  show (if tsInRange ((v : ℚ) / 1000000) then (v : ℚ) / 1000000 else 0) = _
  rw [if_pos h]

lemma chrome_time_eval {v : ℤ} (h : tsInRange (EPOCH_1601_TS + (v : ℚ) / 1000000)) :
    chrome_time_to_unix_s v = EPOCH_1601_TS + (v : ℚ) / 1000000 := by
  show (if tsInRange (EPOCH_1601_TS + (v : ℚ) / 1000000)
    then EPOCH_1601_TS + (v : ℚ) / 1000000 else 0) = _
  rw [if_pos h]

lemma fxEvent_eval {p : String} {r : FxRow} {t m : ℚ}
    (hts : firefox_time_to_unix_s r.visit_date = t) (hpos : 0 < t)
    (hm : roundMs t = m) :
    fxEvent p r = some ⟨"firefox", p, r.url, r.title.getD "", m⟩ := by
  unfold fxEvent
  rw [hts, if_neg (not_le.mpr hpos), hm]

/-! ## Claim theorems -/

/-- C2: Watermark monotonicity.  For every source key and every run of the
whole pipeline, the watermark after the run is at least the watermark
before the run — also when a collector crashes, collects nothing, or
collects only rows whose timestamps do not exceed the current watermark. -/
theorem watermark_monotonicity (env : Env) (st0 : WmState)
    (lg0 : String → List Event) (k : String) :
    getWm st0 k ≤ getWm (runMain (collectors env) st0 lg0).acc.state k := by
  calc getWm st0 k
      ≤ getWm (stepCollector ⟨st0, lg0, [], []⟩ (firefoxSpec env)).state k :=
        step_state_mono (firefoxSpec_shape env) k
    _ ≤ getWm (stepCollector (stepCollector ⟨st0, lg0, [], []⟩
          (firefoxSpec env)) (chromeSpec env)).state k :=
        step_state_mono (chromeSpec_shape env) k
    _ ≤ getWm (stepCollector (stepCollector (stepCollector ⟨st0, lg0, [], []⟩
          (firefoxSpec env)) (chromeSpec env)) (edgeSpec env)).state k :=
        step_state_mono (edgeSpec_shape env) k
    _ ≤ getWm (stepCollector (stepCollector (stepCollector (stepCollector
          ⟨st0, lg0, [], []⟩ (firefoxSpec env)) (chromeSpec env))
          (edgeSpec env)) (safariSpec env)).state k :=
        step_state_mono (safariSpec_shape env) k

/-- C10: Frame property of the collectors.  Each collector invocation
changes at most the watermark entry of its own source key, and leaves even
that entry untouched when it produced zero events. -/
theorem collector_frame_property :
    (∀ (s : WmState) (fs : Option (List FxProfile)) (k : String),
        k ≠ "firefox" → (collect_firefox s fs).state k = s k) ∧
    (∀ (s : WmState) (fs : Option (List FxProfile)),
        (collect_firefox s fs).rows = [] → (collect_firefox s fs).state = s) ∧
    (∀ (s : WmState) (familyKey : String) (ps : List ChProfile) (k : String),
        k ≠ familyKey → (collect_chromium_family s familyKey ps).state k = s k) ∧
    (∀ (s : WmState) (familyKey : String) (ps : List ChProfile),
        (collect_chromium_family s familyKey ps).rows = [] →
          (collect_chromium_family s familyKey ps).state = s) ∧
    (∀ (s : WmState) (fs : Option (List SfRow)) (k : String),
        k ≠ "safari" → (collect_safari s fs).state k = s k) ∧
    (∀ (s : WmState) (fs : Option (List SfRow)),
        (collect_safari s fs).rows = [] → (collect_safari s fs).state = s) := by
  refine ⟨?_, ?_, ?_, ?_, ?_, ?_⟩
  · exact fun s fs k hk => mkCollector_state_frame hk
  · exact fun s fs h => mkCollector_state_of_empty h
  · exact fun s fk ps k hk => mkCollector_state_frame hk
  · exact fun s fk ps h => mkCollector_state_of_empty h
  · exact fun s fs k hk => mkCollector_state_frame hk
  · exact fun s fs h => mkCollector_state_of_empty h

/-- Witness for C10 at concrete inputs: empty state, missing backends. -/
theorem collector_frame_property_witness :
    (collect_firefox (fun _ => none) none).state "chrome"
      = (fun _ => none : WmState) "chrome" ∧
    (collect_firefox (fun _ => none) none).state = (fun _ => none : WmState) ∧
    (collect_chromium_family (fun _ => none) "chrome" []).state "firefox"
      = (fun _ => none : WmState) "firefox" ∧
    (collect_chromium_family (fun _ => none) "chrome" []).state
      = (fun _ => none : WmState) ∧
    (collect_safari (fun _ => none) none).state "edge"
      = (fun _ => none : WmState) "edge" ∧
    (collect_safari (fun _ => none) none).state = (fun _ => none : WmState) :=
  ⟨collector_frame_property.1 _ _ _ (by decide),
   collector_frame_property.2.1 _ _ rfl,
   collector_frame_property.2.2.1 _ _ _ _ (by decide),
   collector_frame_property.2.2.2.1 _ _ _ rfl,
   collector_frame_property.2.2.2.2.1 _ _ _ (by decide),
   collector_frame_property.2.2.2.2.2 _ _ rfl⟩

/-- C9: Totality of the three time normalizers.  Each conversion is a
total function (a Lean `def`, defined for every input); whenever the
`datetime` arithmetic of the source would raise — the input falls outside
the representable range — the function returns the sentinel `0.0 ≤ 0`, so
callers discard the row via their `ts <= 0` check. -/
theorem time_normalizer_totality (v : ℤ) (w : ℚ) :
    (¬ tsInRange ((v : ℚ) / 1000000) → firefox_time_to_unix_s v ≤ 0) ∧
    (¬ tsInRange (EPOCH_1601_TS + (v : ℚ) / 1000000) →
      chrome_time_to_unix_s v ≤ 0) ∧
    (¬ tsInRange (EPOCH_2001_TS + safariSeconds w) →
      safari_time_to_unix_s w ≤ 0) := by
  refine ⟨fun h => ?_, fun h => ?_, fun h => ?_⟩
  · show (if tsInRange ((v : ℚ) / 1000000) then (v : ℚ) / 1000000 else 0) ≤ 0
    rw [if_neg h]
  · show (if tsInRange (EPOCH_1601_TS + (v : ℚ) / 1000000)
      then EPOCH_1601_TS + (v : ℚ) / 1000000 else 0) ≤ 0
    rw [if_neg h]
  · show (if tsInRange (EPOCH_2001_TS + safariSeconds w)
      then EPOCH_2001_TS + safariSeconds w else 0) ≤ 0
    rw [if_neg h]

/-- Witness for C9 at concrete out-of-range inputs. -/
theorem time_normalizer_totality_witness :
    firefox_time_to_unix_s (10 ^ 20) ≤ 0 ∧
    chrome_time_to_unix_s (10 ^ 20) ≤ 0 ∧
    safari_time_to_unix_s (10 ^ 15) ≤ 0 := by
  have hsf : safariSeconds ((10 : ℚ) ^ 15) = ((10 ^ 21 : ℤ) : ℚ) / 1000000 :=
    safariSeconds_eval (by norm_num) (by norm_num)
  refine ⟨(time_normalizer_totality (10 ^ 20) (10 ^ 15)).1 ?_,
    (time_normalizer_totality (10 ^ 20) (10 ^ 15)).2.1 ?_,
    (time_normalizer_totality (10 ^ 20) (10 ^ 15)).2.2 ?_⟩
  · unfold tsInRange DT_MIN_TS DT_MAX_TS
    push_cast
    norm_num
  · unfold tsInRange EPOCH_1601_TS DT_MIN_TS DT_MAX_TS
    push_cast
    norm_num
  · rw [hsf]
    unfold tsInRange EPOCH_2001_TS DT_MIN_TS DT_MAX_TS
    push_cast
    norm_num

/-! ## C3: epoch round-trips -/

lemma abs_safariSeconds_sub (q : ℚ) : |safariSeconds q - q| ≤ 1/2000000 := by
  have h := abs_roundHalfEven_sub (q * 1000000)
  unfold safariSeconds
  have heq : (roundHalfEven (q * 1000000) : ℚ) / 1000000 - q
      = ((roundHalfEven (q * 1000000) : ℚ) - q * 1000000) / 1000000 := by ring
  rw [heq, abs_div, abs_of_pos (by norm_num : (0:ℚ) < 1000000)]
  linarith

lemma abs_rHE_mul_1000 (y : ℚ) :
    |(roundHalfEven y : ℚ) * 1000 - y * 1000| ≤ 500 := by
  have h := abs_roundHalfEven_sub y
  have heq : (roundHalfEven y : ℚ) * 1000 - y * 1000
      = ((roundHalfEven y : ℚ) - y) * 1000 := by ring
  rw [heq, abs_mul, abs_of_pos (by norm_num : (0:ℚ) < 1000)]
  linarith

/-- C3 counterexample: the Firefox round-trip — convert the native
microsecond timestamp as the collector stores it (`round(ts, 3)`), then
back with the collector's query parameter `int(last*1_000_000)` — loses
the sub-millisecond part.  At the in-range native value
1700000000400400 µs the recovered value is 1700000000400000 µs, which is
400 native units away, not within one. -/
theorem epoch_roundtrip_counterexample :
    tsInRange (((1700000000400400 : ℤ) : ℚ) / 1000000) ∧
    firefoxParam (roundMs (firefox_time_to_unix_s 1700000000400400))
      = 1700000000400000 ∧
    ¬ (|firefoxParam (roundMs (firefox_time_to_unix_s 1700000000400400))
        - 1700000000400400| ≤ 1) := by
  have hrange : tsInRange (((1700000000400400 : ℤ) : ℚ) / 1000000) := by
    unfold tsInRange DT_MIN_TS DT_MAX_TS
    push_cast
    norm_num
  have hts := firefox_time_eval hrange
  have hround : roundMs (((1700000000400400 : ℤ) : ℚ) / 1000000)
      = ((1700000000400 : ℤ) : ℚ) / 1000 := by
    refine roundMs_eval ?_ ?_ <;> push_cast <;> norm_num
  have hparam : firefoxParam (((1700000000400 : ℤ) : ℚ) / 1000)
      = 1700000000400000 := by
    unfold firefoxParam
    have hc : ((1700000000400 : ℤ) : ℚ) / 1000 * 1000000
        = ((1700000000400000 : ℤ) : ℚ) := by
      push_cast
      norm_num
    rw [hc, truncInt_intCast]
  refine ⟨hrange, ?_, ?_⟩
  · rw [hts, hround, hparam]
  · rw [hts, hround, hparam]
    norm_num

/-- C3 amended: the collector's round-trips recover the original native
value only up to the stored `round(ts, 3)` millisecond grid: within 500
native units for the microsecond encodings (Firefox, Chromium family),
and within one native unit (one second) for Safari.  The Chromium and
Safari inverses apply only on their `last > 0` branch. -/
theorem epoch_roundtrip_amended (vff vch : ℤ) (vsf : ℚ) :
    (tsInRange ((vff : ℚ) / 1000000) →
      |firefoxParam (roundMs (firefox_time_to_unix_s vff)) - vff| ≤ 500) ∧
    (tsInRange (EPOCH_1601_TS + (vch : ℚ) / 1000000) →
      0 < roundMs (chrome_time_to_unix_s vch) →
      |chromiumParam (roundMs (chrome_time_to_unix_s vch)) - vch| ≤ 500) ∧
    (tsInRange (EPOCH_2001_TS + safariSeconds vsf) →
      0 < roundMs (safari_time_to_unix_s vsf) →
      |safariParam (roundMs (safari_time_to_unix_s vsf)) - vsf| ≤ 1) := by
  refine ⟨fun h => ?_, fun h hpos => ?_, fun h hpos => ?_⟩
  · rw [firefox_time_eval h]
    have hparam : firefoxParam (roundMs ((vff : ℚ) / 1000000))
        = roundHalfEven ((vff : ℚ) / 1000000 * 1000) * 1000 := by
      unfold firefoxParam roundMs
      have hc : (roundHalfEven ((vff : ℚ) / 1000000 * 1000) : ℚ) / 1000 * 1000000
          = ((roundHalfEven ((vff : ℚ) / 1000000 * 1000) * 1000 : ℤ) : ℚ) := by
        push_cast
        ring
      rw [hc, truncInt_intCast]
    rw [hparam]
    have h2 := abs_rHE_mul_1000 ((vff : ℚ) / 1000000 * 1000)
    have hv : ((vff : ℚ) / 1000000 * 1000) * 1000 = (vff : ℚ) := by ring
    rw [hv] at h2
    have hq : |((roundHalfEven ((vff : ℚ) / 1000000 * 1000) * 1000 - vff : ℤ) : ℚ)|
        ≤ 500 := by
      push_cast
      exact h2
    exact_mod_cast hq
  · rw [chrome_time_eval h] at hpos ⊢
    unfold chromiumParam
    rw [if_pos hpos]
    have hc : (roundMs (EPOCH_1601_TS + (vch : ℚ) / 1000000) - EPOCH_1601_TS)
        * 1000000
        = ((roundHalfEven ((EPOCH_1601_TS + (vch : ℚ) / 1000000) * 1000) * 1000
            + 11644473600000000 : ℤ) : ℚ) := by
      unfold roundMs EPOCH_1601_TS
      push_cast
      ring
    rw [hc, truncInt_intCast]
    have h2 := abs_rHE_mul_1000 ((EPOCH_1601_TS + (vch : ℚ) / 1000000) * 1000)
    have hv : ((EPOCH_1601_TS + (vch : ℚ) / 1000000) * 1000) * 1000
        = (vch : ℚ) - 11644473600000000 := by
      unfold EPOCH_1601_TS
      ring
    rw [hv] at h2
    have hq : |((roundHalfEven ((EPOCH_1601_TS + (vch : ℚ) / 1000000) * 1000) * 1000
        + 11644473600000000 - vch : ℤ) : ℚ)| ≤ 500 := by
      push_cast
      have heq : (roundHalfEven ((EPOCH_1601_TS + (vch : ℚ) / 1000000) * 1000) : ℚ)
            * 1000 + 11644473600000000 - (vch : ℚ)
          = (roundHalfEven ((EPOCH_1601_TS + (vch : ℚ) / 1000000) * 1000) : ℚ)
            * 1000 - ((vch : ℚ) - 11644473600000000) := by ring
      rw [heq]
      exact h2
    exact_mod_cast hq
  · have hvq : safari_time_to_unix_s vsf = EPOCH_2001_TS + safariSeconds vsf := by
      show (if tsInRange (EPOCH_2001_TS + safariSeconds vsf)
        then EPOCH_2001_TS + safariSeconds vsf else 0) = _
      rw [if_pos h]
    rw [hvq] at hpos ⊢
    unfold safariParam
    rw [if_pos hpos]
    have h1 := abs_roundMs_sub (EPOCH_2001_TS + safariSeconds vsf)
    have h2 := abs_safariSeconds_sub vsf
    have heq : roundMs (EPOCH_2001_TS + safariSeconds vsf) - EPOCH_2001_TS - vsf
        = (roundMs (EPOCH_2001_TS + safariSeconds vsf)
            - (EPOCH_2001_TS + safariSeconds vsf)) + (safariSeconds vsf - vsf) := by
      ring
    calc |roundMs (EPOCH_2001_TS + safariSeconds vsf) - EPOCH_2001_TS - vsf|
        = |(roundMs (EPOCH_2001_TS + safariSeconds vsf)
            - (EPOCH_2001_TS + safariSeconds vsf)) + (safariSeconds vsf - vsf)| := by
          rw [heq]
      _ ≤ |roundMs (EPOCH_2001_TS + safariSeconds vsf)
            - (EPOCH_2001_TS + safariSeconds vsf)| + |safariSeconds vsf - vsf| :=
          abs_add _ _
      _ ≤ 1/2000 + 1/2000000 := add_le_add h1 h2
      _ ≤ 1 := by norm_num

/-- Witness for C3 amended at concrete in-range native values. -/
theorem epoch_roundtrip_amended_witness :
    |firefoxParam (roundMs (firefox_time_to_unix_s 1700000000000000))
      - 1700000000000000| ≤ 500 ∧
    |chromiumParam (roundMs (chrome_time_to_unix_s 13344473600000000))
      - 13344473600000000| ≤ 500 ∧
    |safariParam (roundMs (safari_time_to_unix_s 700000000)) - 700000000| ≤ 1 := by
  have hrff : tsInRange (((1700000000000000 : ℤ) : ℚ) / 1000000) := by
    unfold tsInRange DT_MIN_TS DT_MAX_TS
    push_cast
    norm_num
  have hrch : tsInRange (EPOCH_1601_TS + ((13344473600000000 : ℤ) : ℚ) / 1000000) := by
    unfold tsInRange EPOCH_1601_TS DT_MIN_TS DT_MAX_TS
    push_cast
    norm_num
  have hchv : EPOCH_1601_TS + ((13344473600000000 : ℤ) : ℚ) / 1000000
      = 1700000000 := by
    unfold EPOCH_1601_TS
    push_cast
    norm_num
  have hsfs : safariSeconds (700000000 : ℚ)
      = ((700000000000000 : ℤ) : ℚ) / 1000000 :=
    safariSeconds_eval (by push_cast; norm_num) (by push_cast; norm_num)
  have hrsf : tsInRange (EPOCH_2001_TS + safariSeconds (700000000 : ℚ)) := by
    rw [hsfs]
    unfold tsInRange EPOCH_2001_TS DT_MIN_TS DT_MAX_TS
    push_cast
    norm_num
  refine ⟨(epoch_roundtrip_amended 1700000000000000 13344473600000000 700000000).1
    hrff,
    (epoch_roundtrip_amended 1700000000000000 13344473600000000 700000000).2.1
      hrch ?_,
    (epoch_roundtrip_amended 1700000000000000 13344473600000000 700000000).2.2
      hrsf ?_⟩
  · rw [chrome_time_eval hrch, hchv]
    rw [show roundMs (1700000000 : ℚ) = ((1700000000000 : ℤ) : ℚ) / 1000 from
      roundMs_eval (by push_cast; norm_num) (by push_cast; norm_num)]
    norm_num
  · have hv : safari_time_to_unix_s 700000000
        = EPOCH_2001_TS + safariSeconds (700000000 : ℚ) := by
      show (if tsInRange (EPOCH_2001_TS + safariSeconds (700000000 : ℚ))
        then EPOCH_2001_TS + safariSeconds (700000000 : ℚ) else 0) = _
      rw [if_pos hrsf]
    rw [hv, hsfs]
    have hval : EPOCH_2001_TS + ((700000000000000 : ℤ) : ℚ) / 1000000
        = 1678307200 := by
      unfold EPOCH_2001_TS
      push_cast
      norm_num
    rw [hval]
    rw [show roundMs (1678307200 : ℚ) = ((1678307200000 : ℤ) : ℚ) / 1000 from
      roundMs_eval (by push_cast; norm_num) (by push_cast; norm_num)]
    norm_num

/-! ## C4: the firefox watermark scenario -/

/-- C4 amended: with watermark 1700000000.0 for `firefox` and a backend
holding one row converting to 1700000050.0 and one stale row converting
to 1699999999.0, the collector emits exactly one Event at 1700000050.0
and the new watermark is 1700000050.0.  The stale row is excluded at the
query stage (`visit_date > int(last*1_000_000)`); the collector has no
post-normalization watermark filter (only the `ts <= 0` discard). -/
theorem firefox_watermark_scenario :
    (collect_firefox (setWm (fun _ => none) "firefox" 1700000000)
      (some [⟨"default",
        some [⟨"https://new.example/", some "New", 1700000050000000⟩,
              ⟨"https://old.example/", some "Old", 1699999999000000⟩]⟩])).rows
      = [⟨"firefox", "default", "https://new.example/", "New", 1700000050⟩] ∧
    getWm (collect_firefox (setWm (fun _ => none) "firefox" 1700000000)
      (some [⟨"default",
        some [⟨"https://new.example/", some "New", 1700000050000000⟩,
              ⟨"https://old.example/", some "Old", 1699999999000000⟩]⟩])).state
      "firefox" = 1700000050 := by
  have hlast : getWm (setWm (fun _ => none) "firefox" 1700000000) "firefox"
      = 1700000000 := by simp [getWm, setWm]
  have hparam : firefoxParam (1700000000 : ℚ) = 1700000000000000 := by
    unfold firefoxParam truncInt
    rw [if_pos (by norm_num)]
    rw [show (1700000000 : ℚ) * 1000000 = ((1700000000000000 : ℤ) : ℚ) from by
      push_cast; norm_num]
    rw [Int.floor_intCast]
  have hA : likeHttp "https://new.example/" = true := by decide
  have hB : likeHttp "https://old.example/" = true := by decide
  have hts : firefox_time_to_unix_s 1700000050000000
      = ((1700000050000000 : ℤ) : ℚ) / 1000000 :=
    firefox_time_eval (by unfold tsInRange DT_MIN_TS DT_MAX_TS; push_cast; norm_num)
  have hev : fxEvent "default" ⟨"https://new.example/", some "New", 1700000050000000⟩
      = some ⟨"firefox", "default", "https://new.example/", "New", 1700000050⟩ := by
    refine fxEvent_eval hts ?_ ?_
    · push_cast
      norm_num
    · rw [show roundMs (((1700000050000000 : ℤ) : ℚ) / 1000000)
        = ((1700000050000 : ℤ) : ℚ) / 1000 from
        roundMs_eval (by push_cast; norm_num) (by push_cast; norm_num)]
      push_cast
      norm_num
  have hrows' : fxResults
      (some [⟨"default",
        some [⟨"https://new.example/", some "New", 1700000050000000⟩,
              ⟨"https://old.example/", some "Old", 1699999999000000⟩]⟩])
      (1700000000 : ℚ)
      = [⟨"firefox", "default", "https://new.example/", "New", 1700000050⟩] := by
    simp [fxResults, optRows, hparam, hA, hB, hev, List.filter_cons, List.filterMap_cons]
  have hrows : (collect_firefox (setWm (fun _ => none) "firefox" 1700000000)
      (some [⟨"default",
        some [⟨"https://new.example/", some "New", 1700000050000000⟩,
              ⟨"https://old.example/", some "Old", 1699999999000000⟩]⟩])).rows
      = [⟨"firefox", "default", "https://new.example/", "New", 1700000050⟩] := by
    rw [collect_firefox_rows, hlast, hrows']
  refine ⟨hrows, ?_⟩
  have hne : fxResults
      (some [⟨"default",
        some [⟨"https://new.example/", some "New", 1700000050000000⟩,
              ⟨"https://old.example/", some "Old", 1699999999000000⟩]⟩])
      (getWm (setWm (fun _ => none) "firefox" 1700000000) "firefox") ≠ [] := by
    rw [hlast, hrows']
    simp
  rw [collect_firefox_def, mkCollector_state_of_ne hne, getWm_setWm_self,
    hlast, hrows']
  show max (1700000000 : ℚ) (1700000050 : ℚ) = 1700000050
  rw [max_eq_right (by norm_num)]

/-- C4 counterexample to the claim's trailing clause: a queried row whose
native timestamp strictly exceeds the watermark in native units but whose
normalized, rounded timestamp is exactly AT the watermark is materialized
into an Event — it is not "discarded post-normalization". -/
theorem firefox_watermark_scenario_counterexample :
    (collect_firefox (setWm (fun _ => none) "firefox" 1700000000)
      (some [⟨"default",
        some [⟨"https://newms.example/", some "T", 1700000000000300⟩]⟩])).rows
      = [⟨"firefox", "default", "https://newms.example/", "T", 1700000000⟩] ∧
    ¬ (getWm (setWm (fun _ => none) "firefox" 1700000000) "firefox"
        < (1700000000 : ℚ)) := by
  have hlast : getWm (setWm (fun _ => none) "firefox" 1700000000) "firefox"
      = 1700000000 := by simp [getWm, setWm]
  have hparam : firefoxParam (1700000000 : ℚ) = 1700000000000000 := by
    unfold firefoxParam truncInt
    rw [if_pos (by norm_num)]
    rw [show (1700000000 : ℚ) * 1000000 = ((1700000000000000 : ℤ) : ℚ) from by
      push_cast; norm_num]
    rw [Int.floor_intCast]
  have hC : likeHttp "https://newms.example/" = true := by decide
  have hts : firefox_time_to_unix_s 1700000000000300
      = ((1700000000000300 : ℤ) : ℚ) / 1000000 :=
    firefox_time_eval (by unfold tsInRange DT_MIN_TS DT_MAX_TS; push_cast; norm_num)
  have hev : fxEvent "default" ⟨"https://newms.example/", some "T", 1700000000000300⟩
      = some ⟨"firefox", "default", "https://newms.example/", "T", 1700000000⟩ := by
    refine fxEvent_eval hts ?_ ?_
    · push_cast
      norm_num
    · rw [show roundMs (((1700000000000300 : ℤ) : ℚ) / 1000000)
        = ((1700000000000 : ℤ) : ℚ) / 1000 from
        roundMs_eval (by push_cast; norm_num) (by push_cast; norm_num)]
      push_cast
      norm_num
  constructor
  · rw [collect_firefox_rows, hlast]
    simp [fxResults, optRows, hparam, hC, hev, List.filter_cons, List.filterMap_cons]
  · rw [hlast]
    exact lt_irrefl _

/-! ## C6: the scheme filter -/

/-- C6 counterexample: the code's filter is `url LIKE 'http%'`, which
also admits urls whose scheme merely begins with the letters `http`.  A
row with url `httpevil://x` is materialized into an Event although its
scheme is not HTTP(S). -/
theorem scheme_filter_counterexample :
    (collect_firefox (fun _ => none)
      (some [⟨"default", some [⟨"httpevil://x", some "T", 1700000050000000⟩]⟩])).rows
      = [⟨"firefox", "default", "httpevil://x", "T", 1700000050⟩] ∧
    isHttpScheme "httpevil://x" = false := by
  have hlast : getWm (fun _ => none : WmState) "firefox" = 0 := rfl
  have hparam : firefoxParam (0 : ℚ) = 0 := by
    unfold firefoxParam truncInt
    rw [if_pos (by norm_num)]
    norm_num
  have hC : likeHttp "httpevil://x" = true := by decide
  have hts : firefox_time_to_unix_s 1700000050000000
      = ((1700000050000000 : ℤ) : ℚ) / 1000000 :=
    firefox_time_eval (by unfold tsInRange DT_MIN_TS DT_MAX_TS; push_cast; norm_num)
  have hev : fxEvent "default" ⟨"httpevil://x", some "T", 1700000050000000⟩
      = some ⟨"firefox", "default", "httpevil://x", "T", 1700000050⟩ := by
    refine fxEvent_eval hts ?_ ?_
    · push_cast
      norm_num
    · rw [show roundMs (((1700000050000000 : ℤ) : ℚ) / 1000000)
        = ((1700000050000 : ℤ) : ℚ) / 1000 from
        roundMs_eval (by push_cast; norm_num) (by push_cast; norm_num)]
      push_cast
      norm_num
  constructor
  · rw [collect_firefox_rows, hlast]
    simp [fxResults, optRows, hparam, hC, hev, List.filter_cons, List.filterMap_cons]
  · decide

/-- C6 amended: every row materialized into an Event, for every source,
has a url matching the SQL filter `LIKE 'http%'` — it begins with the
four letters `http` (ASCII case-insensitively); in particular a row with
url `ftp://example.com` is never materialized.  The filter does not,
however, guarantee a full HTTP(S) scheme (see the counterexample). -/
theorem scheme_filter_amended :
    (∀ (s : WmState) (fs : Option (List FxProfile)) (e : Event),
        e ∈ (collect_firefox s fs).rows →
          likeHttp e.url = true ∧ e.url ≠ "ftp://example.com") ∧
    (∀ (s : WmState) (familyKey : String) (ps : List ChProfile) (e : Event),
        e ∈ (collect_chromium_family s familyKey ps).rows →
          likeHttp e.url = true ∧ e.url ≠ "ftp://example.com") ∧
    (∀ (s : WmState) (fs : Option (List SfRow)) (e : Event),
        e ∈ (collect_safari s fs).rows →
          likeHttp e.url = true ∧ e.url ≠ "ftp://example.com") := by
  have hftp : likeHttp "ftp://example.com" = false := by decide
  refine ⟨fun s fs e he => ?_, fun s fk ps e he => ?_, fun s fs e he => ?_⟩
  · have h1 := fxResults_mem_url he
    refine ⟨h1, fun hurl => ?_⟩
    rw [hurl, hftp] at h1
    exact Bool.false_ne_true h1
  · have h1 := chResults_mem_url he
    refine ⟨h1, fun hurl => ?_⟩
    rw [hurl, hftp] at h1
    exact Bool.false_ne_true h1
  · have h1 := sfResults_mem_url he
    refine ⟨h1, fun hurl => ?_⟩
    rw [hurl, hftp] at h1
    exact Bool.false_ne_true h1

/-- Witness for C6 amended: a concretely collected event satisfies the
filter. -/
theorem scheme_filter_amended_witness :
    likeHttp "https://ok/" = true ∧ "https://ok/" ≠ "ftp://example.com" := by
  have hlast : getWm (fun _ => none : WmState) "firefox" = 0 := rfl
  have hparam : firefoxParam (0 : ℚ) = 0 := by
    unfold firefoxParam truncInt
    rw [if_pos (by norm_num)]
    norm_num
  have hC : likeHttp "https://ok/" = true := by decide
  have hts : firefox_time_to_unix_s 1000000 = ((1000000 : ℤ) : ℚ) / 1000000 :=
    firefox_time_eval (by unfold tsInRange DT_MIN_TS DT_MAX_TS; push_cast; norm_num)
  have hev : fxEvent "p" ⟨"https://ok/", none, 1000000⟩
      = some ⟨"firefox", "p", "https://ok/", "", 1⟩ := by
    refine fxEvent_eval hts ?_ ?_
    · push_cast
      norm_num
    · rw [show roundMs (((1000000 : ℤ) : ℚ) / 1000000)
        = ((1000 : ℤ) : ℚ) / 1000 from
        roundMs_eval (by push_cast; norm_num) (by push_cast; norm_num)]
      push_cast
      norm_num
  have hrows : (collect_firefox (fun _ => none)
      (some [⟨"p", some [⟨"https://ok/", none, 1000000⟩]⟩])).rows
      = [⟨"firefox", "p", "https://ok/", "", 1⟩] := by
    rw [collect_firefox_rows, hlast]
    simp [fxResults, optRows, hparam, hC, hev, List.filter_cons, List.filterMap_cons]
  have hmem : (⟨"firefox", "p", "https://ok/", "", 1⟩ : Event)
      ∈ (collect_firefox (fun _ => none)
        (some [⟨"p", some [⟨"https://ok/", none, 1000000⟩]⟩])).rows := by
    rw [hrows]
    exact List.mem_singleton_self _
  exact scheme_filter_amended.1 (fun _ => none)
    (some [⟨"p", some [⟨"https://ok/", none, 1000000⟩]⟩])
    ⟨"firefox", "p", "https://ok/", "", 1⟩ hmem

/-! ## C1: idempotence of the whole pipeline -/

/-- Core of the idempotence argument, over the unrolled four-collector
loop: a second run started from the first run's final watermark state and
logs leaves both unchanged and appends zero rows for every source. -/
lemma pipeline_idem_core (env : Env) (st0 : WmState) (lg0 : String → List Event)
    (a1 a2 a3 a4 b1 b2 b3 b4 : RunAcc)
    (ha1 : a1 = stepCollector ⟨st0, lg0, [], []⟩ (firefoxSpec env))
    (ha2 : a2 = stepCollector a1 (chromeSpec env))
    (ha3 : a3 = stepCollector a2 (edgeSpec env))
    (ha4 : a4 = stepCollector a3 (safariSpec env))
    (hb1 : b1 = stepCollector ⟨a4.state, a4.logs, [], []⟩ (firefoxSpec env))
    (hb2 : b2 = stepCollector b1 (chromeSpec env))
    (hb3 : b3 = stepCollector b2 (edgeSpec env))
    (hb4 : b4 = stepCollector b3 (safariSpec env)) :
    b4.state = a4.state ∧ b4.logs = a4.logs ∧
    b4.summaries.map (fun e => e.new_rows) = [0, 0, 0, 0] := by
  have hff := firefoxSpec_shape env
  have hch := chromeSpec_shape env
  have hed := edgeSpec_shape env
  have hsf := safariSpec_shape env
  have hSff : a4.state "firefox" = a1.state "firefox" := by
    rw [ha4, ha3, ha2]
    rw [@step_state_frame _ _ _ _ hsf "firefox" (by decide),
        @step_state_frame _ _ _ _ hed "firefox" (by decide),
        @step_state_frame _ _ _ _ hch "firefox" (by decide)]
  have hLff : a4.logs "firefox" = a1.logs "firefox" := by
    rw [ha4, ha3, ha2]
    rw [@step_logs_frame _ _ _ _ hsf "firefox" (by decide),
        @step_logs_frame _ _ _ _ hed "firefox" (by decide),
        @step_logs_frame _ _ _ _ hch "firefox" (by decide)]
  have hSch : a4.state "chrome" = a2.state "chrome" := by
    rw [ha4, ha3]
    rw [@step_state_frame _ _ _ _ hsf "chrome" (by decide),
        @step_state_frame _ _ _ _ hed "chrome" (by decide)]
  have hLch : a4.logs "chrome" = a2.logs "chrome" := by
    rw [ha4, ha3]
    rw [@step_logs_frame _ _ _ _ hsf "chrome" (by decide),
        @step_logs_frame _ _ _ _ hed "chrome" (by decide)]
  have hSed : a4.state "edge" = a3.state "edge" := by
    rw [ha4]
    rw [@step_state_frame _ _ _ _ hsf "edge" (by decide)]
  have hLed : a4.logs "edge" = a3.logs "edge" := by
    rw [ha4]
    rw [@step_logs_frame _ _ _ _ hsf "edge" (by decide)]
  have hB0s : (⟨a4.state, a4.logs, [], []⟩ : RunAcc).state "firefox"
      = (stepCollector ⟨st0, lg0, [], []⟩ (firefoxSpec env)).state "firefox" := by
    show a4.state "firefox" = _
    rw [hSff, ha1]
  have hB0l : (⟨a4.state, a4.logs, [], []⟩ : RunAcc).logs "firefox"
      = (stepCollector ⟨st0, lg0, [], []⟩ (firefoxSpec env)).logs "firefox" := by
    show a4.logs "firefox" = _
    rw [hLff, ha1]
  obtain ⟨h1s, h1l, en1, h1sm, h1z, h1b⟩ :=
    step_idem hff (fx_Pmain env.ffFS) ⟨st0, lg0, [], []⟩
      ⟨a4.state, a4.logs, [], []⟩ hB0s hB0l
  rw [← hb1] at h1s h1l h1sm
  have h1s' : b1.state = a4.state := h1s
  have h1l' : b1.logs = a4.logs := h1l
  have h1sm' : b1.summaries = [en1] := h1sm
  have hB1s : b1.state "chrome"
      = (stepCollector a1 (chromeSpec env)).state "chrome" := by
    calc b1.state "chrome" = a4.state "chrome" := congrFun h1s' "chrome"
      _ = a2.state "chrome" := hSch
      _ = _ := by rw [ha2]
  have hB1l : b1.logs "chrome"
      = (stepCollector a1 (chromeSpec env)).logs "chrome" := by
    calc b1.logs "chrome" = a4.logs "chrome" := congrFun h1l' "chrome"
      _ = a2.logs "chrome" := hLch
      _ = _ := by rw [ha2]
  obtain ⟨h2s, h2l, en2, h2sm, h2z, h2b⟩ :=
    step_idem hch (ch_Pmain "chrome" env.chFS) a1 b1 hB1s hB1l
  rw [← hb2] at h2s h2l h2sm
  have h2s' : b2.state = a4.state := h2s.trans h1s'
  have h2l' : b2.logs = a4.logs := h2l.trans h1l'
  have h2sm' : b2.summaries = [en1, en2] := by rw [h2sm, h1sm']; rfl
  have hB2s : b2.state "edge"
      = (stepCollector a2 (edgeSpec env)).state "edge" := by
    calc b2.state "edge" = a4.state "edge" := congrFun h2s' "edge"
      _ = a3.state "edge" := hSed
      _ = _ := by rw [ha3]
  have hB2l : b2.logs "edge"
      = (stepCollector a2 (edgeSpec env)).logs "edge" := by
    calc b2.logs "edge" = a4.logs "edge" := congrFun h2l' "edge"
      _ = a3.logs "edge" := hLed
      _ = _ := by rw [ha3]
  obtain ⟨h3s, h3l, en3, h3sm, h3z, h3b⟩ :=
    step_idem hed (ch_Pmain "edge" env.edFS) a2 b2 hB2s hB2l
  rw [← hb3] at h3s h3l h3sm
  have h3s' : b3.state = a4.state := h3s.trans h2s'
  have h3l' : b3.logs = a4.logs := h3l.trans h2l'
  have h3sm' : b3.summaries = [en1, en2, en3] := by rw [h3sm, h2sm']; rfl
  have hB3s : b3.state "safari"
      = (stepCollector a3 (safariSpec env)).state "safari" := by
    calc b3.state "safari" = a4.state "safari" := congrFun h3s' "safari"
      _ = _ := by rw [ha4]
  have hB3l : b3.logs "safari"
      = (stepCollector a3 (safariSpec env)).logs "safari" := by
    calc b3.logs "safari" = a4.logs "safari" := congrFun h3l' "safari"
      _ = _ := by rw [ha4]
  obtain ⟨h4s, h4l, en4, h4sm, h4z, h4b⟩ :=
    step_idem hsf (sf_Pmain env.sfFS) a3 b3 hB3s hB3l
  rw [← hb4] at h4s h4l h4sm
  refine ⟨h4s.trans h3s', h4l.trans h3l', ?_⟩
  rw [h4sm, h3sm']
  simp [h1z, h2z, h3z, h4z]

/-- C1: Idempotence.  Running the whole pipeline twice in succession over
unchanged source backends (the same `Env`) makes the second run append
zero rows to every per-source event log, leaves every log unchanged,
and persists a watermark mapping identical to the first run's. -/
theorem pipeline_idempotent (env : Env) (st0 : WmState)
    (lg0 : String → List Event) :
    (runMain (collectors env) (runMain (collectors env) st0 lg0).acc.state
        (runMain (collectors env) st0 lg0).acc.logs).acc.state
      = (runMain (collectors env) st0 lg0).acc.state ∧
    (runMain (collectors env) (runMain (collectors env) st0 lg0).acc.state
        (runMain (collectors env) st0 lg0).acc.logs).acc.logs
      = (runMain (collectors env) st0 lg0).acc.logs ∧
    (runMain (collectors env) (runMain (collectors env) st0 lg0).acc.state
        (runMain (collectors env) st0 lg0).acc.logs).savedState
      = (runMain (collectors env) st0 lg0).savedState ∧
    (runMain (collectors env) (runMain (collectors env) st0 lg0).acc.state
        (runMain (collectors env) st0 lg0).acc.logs).acc.summaries.map
        (fun e => e.new_rows)
      = [0, 0, 0, 0] := by
  obtain ⟨h1, h2, h3⟩ :=
    pipeline_idem_core env st0 lg0 _ _ _ _ _ _ _ _
      rfl rfl rfl rfl rfl rfl rfl rfl
  exact ⟨h1, h2, h1, h3⟩

/-! ## C5: fault isolation -/

/-- C5: Fault isolation.  If any one of the four collectors raises when
invoked, the exception is caught in the coordinator loop: all four
sources still get a Run Summary entry under their own names, the crashed
source's entry reports zero new rows, its watermark entry and its log
are left unchanged, and the run's state, logs, collected rows and
remaining summary entries are exactly those of the run with the crashed
collector removed; the final watermark mapping is still persisted. -/
theorem fault_isolation (env : Env) (st0 : WmState) (lg0 : String → List Event)
    (i : Fin 4) (hc : crashes env i = true) :
    (runMain (collectors env) st0 lg0).acc.summaries.length = 4 ∧
    (runMain (collectors env) st0 lg0).acc.summaries.map (fun e => e.browser)
      = ["firefox", "chrome", "edge", "safari"] ∧
    (∃ en : SummaryEntry,
      ((runMain (collectors env) st0 lg0).acc.summaries.drop i.val).head?
        = some en ∧
      en.browser = sourceKey i ∧ en.new_rows = 0) ∧
    (runMain (collectors env) st0 lg0).acc.state (sourceKey i)
      = st0 (sourceKey i) ∧
    (runMain (collectors env) st0 lg0).acc.logs (sourceKey i)
      = lg0 (sourceKey i) ∧
    (runMain (collectors env) st0 lg0).acc.state
      = (runMain ((collectors env).eraseIdx i.val) st0 lg0).acc.state ∧
    (runMain (collectors env) st0 lg0).acc.logs
      = (runMain ((collectors env).eraseIdx i.val) st0 lg0).acc.logs ∧
    (runMain (collectors env) st0 lg0).acc.allRows
      = (runMain ((collectors env).eraseIdx i.val) st0 lg0).acc.allRows ∧
    (runMain (collectors env) st0 lg0).acc.summaries.eraseIdx i.val
      = (runMain ((collectors env).eraseIdx i.val) st0 lg0).acc.summaries ∧
    (runMain (collectors env) st0 lg0).savedState
      = (runMain (collectors env) st0 lg0).acc.state := by
  have hmap : (runMain (collectors env) st0 lg0).acc.summaries.map
      (fun e => e.browser) = ["firefox", "chrome", "edge", "safari"] := by
    obtain ⟨e1, h1, hb1⟩ := step_summary_browser (firefoxSpec_shape env)
      ⟨st0, lg0, [], []⟩
    obtain ⟨e2, h2, hb2⟩ := step_summary_browser (chromeSpec_shape env)
      (stepCollector ⟨st0, lg0, [], []⟩ (firefoxSpec env))
    obtain ⟨e3, h3, hb3⟩ := step_summary_browser (edgeSpec_shape env)
      (stepCollector (stepCollector ⟨st0, lg0, [], []⟩ (firefoxSpec env))
        (chromeSpec env))
    obtain ⟨e4, h4, hb4⟩ := step_summary_browser (safariSpec_shape env)
      (stepCollector (stepCollector (stepCollector ⟨st0, lg0, [], []⟩
        (firefoxSpec env)) (chromeSpec env)) (edgeSpec env))
    show (stepCollector (stepCollector (stepCollector (stepCollector
        ⟨st0, lg0, [], []⟩ (firefoxSpec env)) (chromeSpec env)) (edgeSpec env))
        (safariSpec env)).summaries.map (fun e => e.browser) = _
    rw [h4, h3, h2, h1]
    simp [hb1, hb2, hb3, hb4]
  have hlen : (runMain (collectors env) st0 lg0).acc.summaries.length = 4 := by
    have h := congrArg List.length hmap
    rw [List.length_map] at h
    exact h
  fin_cases i
  · have hc' : env.ffCrash = true := hc
    have hcr : ∀ s, (firefoxSpec env).run s = none := by
      intro s
      simp [firefoxSpec, hc']
    obtain ⟨hst, hlg, har, her, en, hhd, hbr, hnr⟩ :=
      crash_cons_run (firefoxSpec env) hcr
        [chromeSpec env, edgeSpec env, safariSpec env] ⟨st0, lg0, [], []⟩
    refine ⟨hlen, hmap, ⟨en, hhd, ?_, hnr⟩, ?_, ?_, hst, hlg, har, her, rfl⟩
    · rw [hbr]
      show stripCollect "collect_firefox" = "firefox"
      decide
    · show (stepCollector (stepCollector (stepCollector (stepCollector
        ⟨st0, lg0, [], []⟩ (firefoxSpec env)) (chromeSpec env)) (edgeSpec env))
        (safariSpec env)).state "firefox" = st0 "firefox"
      rw [@step_state_frame _ _ _ _ (safariSpec_shape env) "firefox" (by decide),
          @step_state_frame _ _ _ _ (edgeSpec_shape env) "firefox" (by decide),
          @step_state_frame _ _ _ _ (chromeSpec_shape env) "firefox" (by decide),
          stepCollector_none (hcr _)]
    · show (stepCollector (stepCollector (stepCollector (stepCollector
        ⟨st0, lg0, [], []⟩ (firefoxSpec env)) (chromeSpec env)) (edgeSpec env))
        (safariSpec env)).logs "firefox" = lg0 "firefox"
      rw [@step_logs_frame _ _ _ _ (safariSpec_shape env) "firefox" (by decide),
          @step_logs_frame _ _ _ _ (edgeSpec_shape env) "firefox" (by decide),
          @step_logs_frame _ _ _ _ (chromeSpec_shape env) "firefox" (by decide),
          stepCollector_none (hcr _)]
  · have hc' : env.chCrash = true := hc
    have hcr : ∀ s, (chromeSpec env).run s = none := by
      intro s
      simp [chromeSpec, hc']
    obtain ⟨hst, hlg, har, her, en, hhd, hbr, hnr⟩ :=
      crash_cons_run (chromeSpec env) hcr [edgeSpec env, safariSpec env]
        (stepCollector ⟨st0, lg0, [], []⟩ (firefoxSpec env))
    refine ⟨hlen, hmap, ⟨en, hhd, ?_, hnr⟩, ?_, ?_, hst, hlg, har, her, rfl⟩
    · rw [hbr]
      show stripCollect "collect_chrome" = "chrome"
      decide
    · show (stepCollector (stepCollector (stepCollector (stepCollector
        ⟨st0, lg0, [], []⟩ (firefoxSpec env)) (chromeSpec env)) (edgeSpec env))
        (safariSpec env)).state "chrome" = st0 "chrome"
      rw [@step_state_frame _ _ _ _ (safariSpec_shape env) "chrome" (by decide),
          @step_state_frame _ _ _ _ (edgeSpec_shape env) "chrome" (by decide),
          stepCollector_none (hcr _)]
      dsimp only
      rw [@step_state_frame _ _ _ _ (firefoxSpec_shape env) "chrome" (by decide)]
    · show (stepCollector (stepCollector (stepCollector (stepCollector
        ⟨st0, lg0, [], []⟩ (firefoxSpec env)) (chromeSpec env)) (edgeSpec env))
        (safariSpec env)).logs "chrome" = lg0 "chrome"
      rw [@step_logs_frame _ _ _ _ (safariSpec_shape env) "chrome" (by decide),
          @step_logs_frame _ _ _ _ (edgeSpec_shape env) "chrome" (by decide),
          stepCollector_none (hcr _)]
      dsimp only
      rw [@step_logs_frame _ _ _ _ (firefoxSpec_shape env) "chrome" (by decide)]
  · have hc' : env.edCrash = true := hc
    have hcr : ∀ s, (edgeSpec env).run s = none := by
      intro s
      simp [edgeSpec, hc']
    obtain ⟨hst, hlg, har, her, en, hhd, hbr, hnr⟩ :=
      crash_cons_run (edgeSpec env) hcr [safariSpec env]
        (stepCollector (stepCollector ⟨st0, lg0, [], []⟩ (firefoxSpec env))
          (chromeSpec env))
    refine ⟨hlen, hmap, ⟨en, hhd, ?_, hnr⟩, ?_, ?_, hst, hlg, har, her, rfl⟩
    · rw [hbr]
      show stripCollect "collect_edge" = "edge"
      decide
    · show (stepCollector (stepCollector (stepCollector (stepCollector
        ⟨st0, lg0, [], []⟩ (firefoxSpec env)) (chromeSpec env)) (edgeSpec env))
        (safariSpec env)).state "edge" = st0 "edge"
      rw [@step_state_frame _ _ _ _ (safariSpec_shape env) "edge" (by decide),
          stepCollector_none (hcr _)]
      dsimp only
      rw [@step_state_frame _ _ _ _ (chromeSpec_shape env) "edge" (by decide),
          @step_state_frame _ _ _ _ (firefoxSpec_shape env) "edge" (by decide)]
    · show (stepCollector (stepCollector (stepCollector (stepCollector
        ⟨st0, lg0, [], []⟩ (firefoxSpec env)) (chromeSpec env)) (edgeSpec env))
        (safariSpec env)).logs "edge" = lg0 "edge"
      rw [@step_logs_frame _ _ _ _ (safariSpec_shape env) "edge" (by decide),
          stepCollector_none (hcr _)]
      dsimp only
      rw [@step_logs_frame _ _ _ _ (chromeSpec_shape env) "edge" (by decide),
          @step_logs_frame _ _ _ _ (firefoxSpec_shape env) "edge" (by decide)]
  · have hc' : env.sfCrash = true := hc
    have hcr : ∀ s, (safariSpec env).run s = none := by
      intro s
      simp [safariSpec, hc']
    obtain ⟨hst, hlg, har, her, en, hhd, hbr, hnr⟩ :=
      crash_cons_run (safariSpec env) hcr []
        (stepCollector (stepCollector (stepCollector ⟨st0, lg0, [], []⟩
          (firefoxSpec env)) (chromeSpec env)) (edgeSpec env))
    refine ⟨hlen, hmap, ⟨en, hhd, ?_, hnr⟩, ?_, ?_, hst, hlg, har, her, rfl⟩
    · rw [hbr]
      show stripCollect "collect_safari" = "safari"
      decide
    · show (stepCollector (stepCollector (stepCollector (stepCollector
        ⟨st0, lg0, [], []⟩ (firefoxSpec env)) (chromeSpec env)) (edgeSpec env))
        (safariSpec env)).state "safari" = st0 "safari"
      rw [stepCollector_none (hcr _)]
      dsimp only
      rw [@step_state_frame _ _ _ _ (edgeSpec_shape env) "safari" (by decide),
          @step_state_frame _ _ _ _ (chromeSpec_shape env) "safari" (by decide),
          @step_state_frame _ _ _ _ (firefoxSpec_shape env) "safari" (by decide)]
    · show (stepCollector (stepCollector (stepCollector (stepCollector
        ⟨st0, lg0, [], []⟩ (firefoxSpec env)) (chromeSpec env)) (edgeSpec env))
        (safariSpec env)).logs "safari" = lg0 "safari"
      rw [stepCollector_none (hcr _)]
      dsimp only
      rw [@step_logs_frame _ _ _ _ (edgeSpec_shape env) "safari" (by decide),
          @step_logs_frame _ _ _ _ (chromeSpec_shape env) "safari" (by decide),
          @step_logs_frame _ _ _ _ (firefoxSpec_shape env) "safari" (by decide)]

/-- Witness for C5: the chrome collector (a middle loop position) raises
in a concrete environment. -/
theorem fault_isolation_witness :
    (runMain (collectors chCrashEnv) (fun _ => none)
        (fun _ => [])).acc.summaries.length = 4 ∧
    (runMain (collectors chCrashEnv) (fun _ => none)
        (fun _ => [])).acc.summaries.map (fun e => e.browser)
      = ["firefox", "chrome", "edge", "safari"] ∧
    (∃ en : SummaryEntry,
      ((runMain (collectors chCrashEnv) (fun _ => none)
          (fun _ => [])).acc.summaries.drop (1 : Fin 4).val).head? = some en ∧
      en.browser = sourceKey 1 ∧ en.new_rows = 0) ∧
    (runMain (collectors chCrashEnv) (fun _ => none)
        (fun _ => [])).acc.state (sourceKey 1)
      = (fun _ => none : WmState) (sourceKey 1) ∧
    (runMain (collectors chCrashEnv) (fun _ => none)
        (fun _ => [])).acc.logs (sourceKey 1)
      = (fun _ => ([] : List Event)) (sourceKey 1) ∧
    (runMain (collectors chCrashEnv) (fun _ => none)
        (fun _ => [])).acc.state
      = (runMain ((collectors chCrashEnv).eraseIdx (1 : Fin 4).val)
          (fun _ => none) (fun _ => [])).acc.state ∧
    (runMain (collectors chCrashEnv) (fun _ => none)
        (fun _ => [])).acc.logs
      = (runMain ((collectors chCrashEnv).eraseIdx (1 : Fin 4).val)
          (fun _ => none) (fun _ => [])).acc.logs ∧
    (runMain (collectors chCrashEnv) (fun _ => none)
        (fun _ => [])).acc.allRows
      = (runMain ((collectors chCrashEnv).eraseIdx (1 : Fin 4).val)
          (fun _ => none) (fun _ => [])).acc.allRows ∧
    (runMain (collectors chCrashEnv) (fun _ => none)
        (fun _ => [])).acc.summaries.eraseIdx (1 : Fin 4).val
      = (runMain ((collectors chCrashEnv).eraseIdx (1 : Fin 4).val)
          (fun _ => none) (fun _ => [])).acc.summaries ∧
    (runMain (collectors chCrashEnv) (fun _ => none)
        (fun _ => [])).savedState
      = (runMain (collectors chCrashEnv) (fun _ => none)
          (fun _ => [])).acc.state :=
  fault_isolation chCrashEnv (fun _ => none) (fun _ => []) 1 rfl

/-! ## C7: the run-summary total -/

/-- C7 amended: the summary field `total_new` counts the rows collected
this run (`len(all_rows)`, before dedup); it is an upper bound on — not
in general equal to — the sum of the per-source `new_rows` counts
actually appended by the writer. -/
theorem total_new_bound (cs : List CollectorSpec) (st0 : WmState)
    (lg0 : String → List Event) :
    (runMain cs st0 lg0).total_new = (runMain cs st0 lg0).acc.allRows.length ∧
    ((runMain cs st0 lg0).acc.summaries.map (fun e => e.new_rows)).sum
      ≤ (runMain cs st0 lg0).total_new :=
  ⟨rfl, foldl_sum_le cs ⟨st0, lg0, [], []⟩ (by simp)⟩

/-! ## C8: the crashed-collector `prev_last_ts` bug -/

/-- C8 evaluation at the failing input: the firefox collector raises while
the persisted watermark mapping holds `{"firefox": 1700000000.0}`.  The
coordinator's `except` branch looks the previous watermark up under
`fn.__name__` (`"collect_firefox"`), a key that never exists, so the Run
Summary reports `prev_last_ts = 0.0` although the run-start watermark was
1700000000.0 — which the same entry's `new_last_ts` still shows. -/
theorem run_summary_prev_watermark_bug :
    ((runMain (collectors ffCrashEnv) wmStateFx (fun _ => [])).acc.summaries.map
        (fun e => (e.browser, e.prev_last_ts))).head? = some ("firefox", 0) ∧
    getWm wmStateFx "firefox" = 1700000000 ∧
    ((runMain (collectors ffCrashEnv) wmStateFx (fun _ => [])).acc.summaries.map
        (fun e => e.new_last_ts)).head? = some 1700000000 := by
  have hrun : (firefoxSpec ffCrashEnv).run wmStateFx = none := rfl
  have hstep1 : stepCollector ⟨wmStateFx, (fun _ => []), [], []⟩
      (firefoxSpec ffCrashEnv)
      = ⟨wmStateFx, (fun _ => []), [⟨"firefox", 0, 0, 1700000000⟩], []⟩ := by
    rw [stepCollector_none hrun]
    rw [RunAcc.mk.injEq]
    refine ⟨rfl, rfl, ?_, rfl⟩
    rw [(firefoxSpec_shape ffCrashEnv).1]
    simp [getWm, wmStateFx, firefoxSpec]
  have hacc : (runMain (collectors ffCrashEnv) wmStateFx (fun _ => [])).acc
      = ⟨(runMain [chromeSpec ffCrashEnv, edgeSpec ffCrashEnv, safariSpec ffCrashEnv]
            wmStateFx (fun _ => [])).acc.state,
         (runMain [chromeSpec ffCrashEnv, edgeSpec ffCrashEnv, safariSpec ffCrashEnv]
            wmStateFx (fun _ => [])).acc.logs,
         [⟨"firefox", 0, 0, 1700000000⟩]
           ++ (runMain [chromeSpec ffCrashEnv, edgeSpec ffCrashEnv,
              safariSpec ffCrashEnv] wmStateFx (fun _ => [])).acc.summaries,
         [] ++ (runMain [chromeSpec ffCrashEnv, edgeSpec ffCrashEnv,
            safariSpec ffCrashEnv] wmStateFx (fun _ => [])).acc.allRows⟩ := by
    show List.foldl stepCollector
        (stepCollector ⟨wmStateFx, (fun _ => []), [], []⟩ (firefoxSpec ffCrashEnv))
        [chromeSpec ffCrashEnv, edgeSpec ffCrashEnv, safariSpec ffCrashEnv] = _
    rw [hstep1]
    exact foldl_step_shift [chromeSpec ffCrashEnv, edgeSpec ffCrashEnv,
      safariSpec ffCrashEnv] wmStateFx (fun _ => []) _ _
  refine ⟨?_, ?_, ?_⟩
  · rw [hacc]
    rfl
  · simp [getWm, wmStateFx]
  · rw [hacc]
    rfl

/-! ## C7 counterexample: `total_new` counts deduplicated rows too -/

/-- C7 counterexample: with the firefox log already containing the one
row the backend serves, the writer appends nothing (`new_rows` sums to
0), yet the Run Summary's `total_new` — `len(all_rows)` — reports 1. -/
theorem total_new_counterexample :
    (runMain (collectors dupBackendEnv) (fun _ => none) dupLogs).total_new = 1 ∧
    ((runMain (collectors dupBackendEnv) (fun _ => none) dupLogs).acc.summaries.map
        (fun e => e.new_rows)).sum = 0 := by
  have hlast0 : getWm (fun _ => none : WmState) "firefox" = 0 := rfl
  have hparam : firefoxParam (0 : ℚ) = 0 := by
    unfold firefoxParam truncInt
    rw [if_pos (by norm_num)]
    norm_num
  have hC : likeHttp "https://dup/" = true := by decide
  have hts : firefox_time_to_unix_s 1700000050000000
      = ((1700000050000000 : ℤ) : ℚ) / 1000000 :=
    firefox_time_eval (by unfold tsInRange DT_MIN_TS DT_MAX_TS; push_cast; norm_num)
  have hev : fxEvent "p" ⟨"https://dup/", some "T", 1700000050000000⟩
      = some ⟨"firefox", "p", "https://dup/", "T", 1700000050⟩ := by
    refine fxEvent_eval hts ?_ ?_
    · push_cast
      norm_num
    · rw [show roundMs (((1700000050000000 : ℤ) : ℚ) / 1000000)
        = ((1700000050000 : ℤ) : ℚ) / 1000 from
        roundMs_eval (by push_cast; norm_num) (by push_cast; norm_num)]
      push_cast
      norm_num
  have hrows : (collect_firefox (fun _ => none) dupBackendEnv.ffFS).rows
      = [dupEvent] := by
    rw [collect_firefox_rows, hlast0,
        show dupBackendEnv.ffFS
          = some [⟨"p", some [⟨"https://dup/", some "T", 1700000050000000⟩]⟩]
          from rfl]
    simp [fxResults, optRows, hparam, hC, hev, List.filter_cons,
      List.filterMap_cons, dupEvent]
  have hdl : dupLogs "firefox" = [dupEvent] := by simp [dupLogs]
  have hw1 : write_csv_append [dupEvent] [dupEvent] = ([dupEvent], 0) := by
    refine write_csv_append_all_present ?_
    intro r hr
    obtain rfl := List.mem_singleton.mp hr
    exact List.mem_map_of_mem csvKey (List.mem_singleton_self _)
  have hrun1 : (firefoxSpec dupBackendEnv).run (fun _ => none : WmState)
      = some (collect_firefox (fun _ => none) dupBackendEnv.ffFS) := rfl
  have hOname : (collect_firefox (fun _ => none) dupBackendEnv.ffFS).name
      = "firefox" := rfl
  have ha1 : stepCollector ⟨(fun _ => none : WmState), dupLogs, [], []⟩
      (firefoxSpec dupBackendEnv)
      = ⟨(collect_firefox (fun _ => none) dupBackendEnv.ffFS).state, dupLogs,
         [⟨"firefox", 0,
           (collect_firefox (fun _ => none) dupBackendEnv.ffFS).prev,
           ((collect_firefox (fun _ => none) dupBackendEnv.ffFS).state
             "firefox").getD
             (collect_firefox (fun _ => none) dupBackendEnv.ffFS).prev⟩],
         [dupEvent]⟩ := by
    rw [stepCollector_some hrun1]
    dsimp only
    rw [hOname, hrows, hdl, hw1]
    rw [RunAcc.mk.injEq]
    refine ⟨rfl, ?_, rfl, rfl⟩
    funext k
    by_cases h2 : k = "firefox"
    · rw [if_pos h2, h2, hdl]
    · rw [if_neg h2]
  have hrunCh : ∀ s : WmState, (chromeSpec dupBackendEnv).run s
      = some (mkCollector "chrome" (chResults "chrome" []) s) := fun _ => rfl
  have hrunEd : ∀ s : WmState, (edgeSpec dupBackendEnv).run s
      = some (mkCollector "edge" (chResults "edge" []) s) := fun _ => rfl
  have hrunSf : ∀ s : WmState, (safariSpec dupBackendEnv).run s
      = some (mkCollector "safari" (sfResults none) s) := fun _ => rfl
  obtain ⟨e2, ha2, hz2⟩ := @stepCollector_no_rows
    ⟨(collect_firefox (fun _ => none) dupBackendEnv.ffFS).state, dupLogs,
     [⟨"firefox", 0,
       (collect_firefox (fun _ => none) dupBackendEnv.ffFS).prev,
       ((collect_firefox (fun _ => none) dupBackendEnv.ffFS).state
         "firefox").getD
         (collect_firefox (fun _ => none) dupBackendEnv.ffFS).prev⟩],
     [dupEvent]⟩
    (chromeSpec dupBackendEnv) "chrome" (chResults "chrome" [])
    (hrunCh _) rfl
  have hA2 : stepCollector
      ⟨(collect_firefox (fun _ => none) dupBackendEnv.ffFS).state, dupLogs,
       [⟨"firefox", 0,
         (collect_firefox (fun _ => none) dupBackendEnv.ffFS).prev,
         ((collect_firefox (fun _ => none) dupBackendEnv.ffFS).state
           "firefox").getD
           (collect_firefox (fun _ => none) dupBackendEnv.ffFS).prev⟩],
       [dupEvent]⟩ (chromeSpec dupBackendEnv)
      = ⟨(collect_firefox (fun _ => none) dupBackendEnv.ffFS).state, dupLogs,
         [⟨"firefox", 0,
           (collect_firefox (fun _ => none) dupBackendEnv.ffFS).prev,
           ((collect_firefox (fun _ => none) dupBackendEnv.ffFS).state
             "firefox").getD
             (collect_firefox (fun _ => none) dupBackendEnv.ffFS).prev⟩, e2],
         [dupEvent]⟩ := ha2
  obtain ⟨e3, ha3, hz3⟩ := @stepCollector_no_rows
    ⟨(collect_firefox (fun _ => none) dupBackendEnv.ffFS).state, dupLogs,
     [⟨"firefox", 0,
       (collect_firefox (fun _ => none) dupBackendEnv.ffFS).prev,
       ((collect_firefox (fun _ => none) dupBackendEnv.ffFS).state
         "firefox").getD
         (collect_firefox (fun _ => none) dupBackendEnv.ffFS).prev⟩, e2],
     [dupEvent]⟩
    (edgeSpec dupBackendEnv) "edge" (chResults "edge" [])
    (hrunEd _) rfl
  have hA3 : stepCollector
      ⟨(collect_firefox (fun _ => none) dupBackendEnv.ffFS).state, dupLogs,
       [⟨"firefox", 0,
         (collect_firefox (fun _ => none) dupBackendEnv.ffFS).prev,
         ((collect_firefox (fun _ => none) dupBackendEnv.ffFS).state
           "firefox").getD
           (collect_firefox (fun _ => none) dupBackendEnv.ffFS).prev⟩, e2],
       [dupEvent]⟩ (edgeSpec dupBackendEnv)
      = ⟨(collect_firefox (fun _ => none) dupBackendEnv.ffFS).state, dupLogs,
         [⟨"firefox", 0,
           (collect_firefox (fun _ => none) dupBackendEnv.ffFS).prev,
           ((collect_firefox (fun _ => none) dupBackendEnv.ffFS).state
             "firefox").getD
             (collect_firefox (fun _ => none) dupBackendEnv.ffFS).prev⟩, e2, e3],
         [dupEvent]⟩ := ha3
  obtain ⟨e4, ha4, hz4⟩ := @stepCollector_no_rows
    ⟨(collect_firefox (fun _ => none) dupBackendEnv.ffFS).state, dupLogs,
     [⟨"firefox", 0,
       (collect_firefox (fun _ => none) dupBackendEnv.ffFS).prev,
       ((collect_firefox (fun _ => none) dupBackendEnv.ffFS).state
         "firefox").getD
         (collect_firefox (fun _ => none) dupBackendEnv.ffFS).prev⟩, e2, e3],
     [dupEvent]⟩
    (safariSpec dupBackendEnv) "safari" (sfResults none)
    (hrunSf _) rfl
  have hA4 : stepCollector
      ⟨(collect_firefox (fun _ => none) dupBackendEnv.ffFS).state, dupLogs,
       [⟨"firefox", 0,
         (collect_firefox (fun _ => none) dupBackendEnv.ffFS).prev,
         ((collect_firefox (fun _ => none) dupBackendEnv.ffFS).state
           "firefox").getD
           (collect_firefox (fun _ => none) dupBackendEnv.ffFS).prev⟩, e2, e3],
       [dupEvent]⟩ (safariSpec dupBackendEnv)
      = ⟨(collect_firefox (fun _ => none) dupBackendEnv.ffFS).state, dupLogs,
         [⟨"firefox", 0,
           (collect_firefox (fun _ => none) dupBackendEnv.ffFS).prev,
           ((collect_firefox (fun _ => none) dupBackendEnv.ffFS).state
             "firefox").getD
             (collect_firefox (fun _ => none) dupBackendEnv.ffFS).prev⟩,
           e2, e3, e4],
         [dupEvent]⟩ := ha4
  have hfold : (runMain (collectors dupBackendEnv) (fun _ => none) dupLogs).acc
      = ⟨(collect_firefox (fun _ => none) dupBackendEnv.ffFS).state, dupLogs,
         [⟨"firefox", 0,
           (collect_firefox (fun _ => none) dupBackendEnv.ffFS).prev,
           ((collect_firefox (fun _ => none) dupBackendEnv.ffFS).state
             "firefox").getD
             (collect_firefox (fun _ => none) dupBackendEnv.ffFS).prev⟩,
           e2, e3, e4],
         [dupEvent]⟩ := by
    show List.foldl stepCollector ⟨(fun _ => none : WmState), dupLogs, [], []⟩
        [firefoxSpec dupBackendEnv, chromeSpec dupBackendEnv,
         edgeSpec dupBackendEnv, safariSpec dupBackendEnv] = _
    rw [List.foldl_cons, ha1, List.foldl_cons, hA2, List.foldl_cons, hA3,
        List.foldl_cons, hA4, List.foldl_nil]
  constructor
  · show (runMain (collectors dupBackendEnv) (fun _ => none)
      dupLogs).acc.allRows.length = 1
    rw [hfold]
    rfl
  · rw [hfold]
    simp [hz2, hz3, hz4]

end BrowserHistoryDiff
